import Mathlib

/-!
# repo-create: a shallow embedding of `src/repo-create.go`

The program is straight-line orchestration over external processes, the file
system, standard input and standard output.  It is embedded as a deterministic
function of the parsed options and of an environment (`World`) that answers
every effectful call; each call is recorded in a trace of `Event`s, and
`os.Exit` / `log.Fatalf` are modelled by an early-exit result.

Modelling decisions:

* `main` is embedded from the point after `flag.Parse()`: its input is the four
  flag values (`Options`).
* Every effectful call is assumed to return (a child process that never exits,
  or a read that blocks forever, is outside the model).
* Within one run no external call is issued twice with the same arguments
  (`run_execs_nodup`, `run_fs_calls`), so the environment's answers are indexed
  by the arguments of the call.
* Standard input is a stream of runes.  Children started through `os/exec` with
  a nil `Stdin` read from the null device, so only `fmt.Scanln` consumes it.
* The working directory is represented by the list of arguments of the
  successful `os.Chdir` calls applied to the directory the process started in.
-/

namespace RepoCreate

/-! ## Go standard library functions used by the source -/

/-- Go `fmt.isSpace`: the white-space table used by the scanning routines of package `fmt`. -/
def isSpace (r : Char) : Bool :=
  let n := r.toNat
  (0x0009 ≤ n && n ≤ 0x000d) || n == 0x0020 || n == 0x0085 || n == 0x00a0 ||
  n == 0x1680 || (0x2000 ≤ n && n ≤ 0x200a) || (0x2028 ≤ n && n ≤ 0x2029) ||
  n == 0x202f || n == 0x205f || n == 0x3000

/-- Go `fmt.notSpace`. -/
def notSpace (r : Char) : Bool := !isSpace r

/-- Go `(*ss).SkipSpace` in `Scanln` mode (newline is not a space): `none` is the
"unexpected newline" error, raised after the newline has been read; otherwise the
input from the first non-space rune on (empty at end of input). -/
def skipSpace : List Char → Option (List Char)
  | [] => some []
  | r :: rest =>
    if r = '\n' then none
    else if isSpace r then skipSpace rest
    else some (r :: rest)

/-- The input that is left when `skipSpace` fails: everything after the newline it read. -/
def afterNewline : List Char → List Char
  | [] => []
  | r :: rest => if r = '\n' then rest else afterNewline rest

/-- Go `(*ss).token(true, notSpace)`: the longest prefix of non-space runes, and the
rest of the input (the delimiter is unread, so it stays in the input). -/
def token : List Char → List Char × List Char
  | [] => ([], [])
  | r :: rest =>
    if notSpace r then ((token rest).1.cons r, (token rest).2)
    else ([], r :: rest)

/-- The final loop of Go `(*ss).doScan` when `nlIsEnd` is set: read up to and including
the newline (or to end of input); a non-space rune is read and then reported as the
"expected newline" error.  Returns whether an error was raised and the unread input. -/
def expectNewline : List Char → Bool × List Char
  | [] => (false, [])
  | r :: rest =>
    if r = '\n' then (false, rest)
    else if isSpace r then expectNewline rest
    else (true, rest)

/-- Go `fmt.Scanln(&response)` for one string operand whose previous value is `""`,
reading rune by rune from standard input: the new value of `response`, whether an
error was returned, and the input that has not been read. -/
def scanlnString (input : List Char) : String × Bool × List Char :=
  match skipSpace input with
  | none => ("", true, afterNewline input)
  | some [] => ("", true, [])
  | some (r :: rest) =>
    let t := token (r :: rest)
    let e := expectNewline t.2
    (String.mk t.1, e.1, e.2)

/-- Go `strings.ToLower`, restricted to the ASCII letters.  The source only compares the
result with `"y"`, and `Y` is the only rune other than `y` whose lower case is `y`. -/
def stringsToLower (s : String) : String := String.mk (s.data.map Char.toLower)

/-- Go `strings.Join`. -/
def stringsJoin (elems : List String) (sep : String) : String := sep.intercalate elems

/-- Go `%v` formatting of a `[]string`. -/
def fmtSliceV (elems : List String) : String := "[" ++ stringsJoin elems " " ++ "]"

/-! ## Effects -/

/-- The effectful calls a run can make, in the order they are made. -/
inductive Event where
  /-- A write to standard output by `fmt.Print`, `fmt.Printf` or `fmt.Println`. -/
  | stdout (text : String)
  /-- A call of `fmt.Scanln(&response)`, with the value left in `response`. -/
  | scanln (response : String)
  /-- A call of `(*exec.Cmd).Run` for the command line `argv`; `inherit` tells whether the
  child was given the parent's standard output and standard error (`runCommand`) or
  not (`repoExists`). -/
  | exec (argv : List String) (inherit : Bool)
  /-- A call of `os.Stat`. -/
  | stat (path : String)
  /-- A call of `os.Mkdir`. -/
  | mkdir (path : String) (perm : Nat)
  /-- A call of `os.Chdir`. -/
  | chdir (path : String)
  /-- A call of `log.Fatalf` with the formatted message (it then exits with status 1). -/
  | fatal (msg : String)
  deriving DecidableEq, Repr

/-- The environment of one run: the runes on standard input and, for every external
call, the error it returns (`none` for a nil error). -/
structure World where
  stdin : List Char
  cmdErr : List String → Option String
  statErr : String → Option String
  mkdirErr : String → Option String
  chdirErr : String → Option String

/-- The state threaded through a run. -/
structure State where
  trace : List Event
  stdin : List Char
  cwd : List String
  deriving DecidableEq, Repr

/-- A step either returns a value or terminates the process with an exit status. -/
inductive Result (α : Type) where
  | ok (a : α) (s : State)
  | exited (code : Nat) (s : State)

/-- Programs: state passing over a fixed environment, with early exit. -/
@[reducible] def Prog (α : Type) : Type := World → State → Result α

/-- Sequencing: an exit skips the continuation. -/
def Result.andThen {α β : Type} : Result α → (α → State → Result β) → Result β
  | Result.ok a s, k => k a s
  | Result.exited c s, _ => Result.exited c s

instance : Monad Prog where
  pure a := fun _ s => Result.ok a s
  bind m f := fun w s => (m w s).andThen (fun a s1 => f a w s1)

/-- Append an event to the trace. -/
def emit (e : Event) : Prog Unit :=
  fun _ s => Result.ok () { s with trace := s.trace ++ [e] }

/-- Go `fmt.Print` / `fmt.Printf` / `fmt.Println` with the text already formatted. -/
def fmtPrint (text : String) : Prog Unit := emit (Event.stdout text)

/-- Go `os.Exit`. -/
def osExit {α : Type} (code : Nat) : Prog α := fun _ s => Result.exited code s

/-- Go `log.Fatalf`: write the message, then `os.Exit(1)`. -/
def logFatalf {α : Type} (msg : String) : Prog α :=
  fun _ s => Result.exited 1 { s with trace := s.trace ++ [Event.fatal msg] }

/-- Go `exec.Command(argv...).Run()`, returning the error. -/
def cmdRun (argv : List String) (inherit : Bool) : Prog (Option String) :=
  fun w s => Result.ok (w.cmdErr argv) { s with trace := s.trace ++ [Event.exec argv inherit] }

/-- Go `os.Stat`, returning the error. -/
def osStat (path : String) : Prog (Option String) :=
  fun w s => Result.ok (w.statErr path) { s with trace := s.trace ++ [Event.stat path] }

/-- Go `os.Mkdir`, returning the error. -/
def osMkdir (path : String) (perm : Nat) : Prog (Option String) :=
  fun w s => Result.ok (w.mkdirErr path) { s with trace := s.trace ++ [Event.mkdir path perm] }

/-- Go `os.Chdir`, returning the error; the working directory changes when it is nil. -/
def osChdir (path : String) : Prog (Option String) :=
  fun w s =>
    match w.chdirErr path with
    | none => Result.ok none { s with trace := s.trace ++ [Event.chdir path], cwd := s.cwd ++ [path] }
    | some e => Result.ok (some e) { s with trace := s.trace ++ [Event.chdir path] }

/-- Go `var response string; fmt.Scanln(&response)`: the value of `response` afterwards
(the returned error is discarded by the source). -/
def fmtScanln : Prog String :=
  fun _ s =>
    let r := scanlnString s.stdin
    Result.ok r.1 { s with trace := s.trace ++ [Event.scanln r.1], stdin := r.2.2 }

/-! ## The program -/

/-- The values of the four flags after `flag.Parse()`. -/
structure Options where
  name : String
  createDir : Bool
  priv : Bool
  help : Bool
  deriving DecidableEq, Repr

/-- The local `programName` of `init`. -/
def programName : String := "create-repo"

/-- The closure assigned to `flag.Usage` in `init`. -/
def flagUsage : Prog Unit := do
  fmtPrint ("\nUsage: " ++ programName ++ " [options]\n")
  fmtPrint "\nOptions:\n"
  fmtPrint "\t-name                 Repository name (required). If remote repository already exists, ask whether to clone it\n"
  fmtPrint "\t-create-dir           Create a directory for the repository (default: current directory). If the directory already exists, ask whether to reuse it\n"
  fmtPrint "\t-private              Make the repository private (default: public).\n"
  fmtPrint "\t-help                 Show this help message\n"
  fmtPrint "\nExamples:\n"
  fmtPrint ("\t" ++ programName ++ " -help\n")
  fmtPrint ("\t" ++ programName ++ " -name=myrepo\n")
  fmtPrint ("\t" ++ programName ++ " -name=myrepo -create-dir=true\n")
  fmtPrint ("\t" ++ programName ++ " -name=myrepo -private=true\n")
  fmtPrint ("\t" ++ programName ++ " -name=myrepo -create-dir=true -private=true\n\n")
  fmtPrint "\n🔥 Automates repository creation with Git and GitHub CLI 🔥\n"

/-- Source `repoExists`. -/
def repoExists (repoName : String) : Prog Bool := do
  let err ← cmdRun ["gh", "repo", "view", repoName] false
  return err.isNone

/-- Source `confirm`. -/
def confirm (prompt : String) : Prog Bool := do
  fmtPrint (prompt ++ " (y/N): ")
  let response ← fmtScanln
  return stringsToLower response == "y"

/-- Source `runCommand`. -/
def runCommand (command : String) (args : List String) : Prog Unit := do
  fmtPrint ("\t⚙️  Running command: " ++ command ++ " " ++ stringsJoin args " " ++ "\n")
  let err ← cmdRun (command :: args) true
  match err with
  | some e =>
    logFatalf ("❌ Error running command " ++ command ++ " " ++ fmtSliceV args ++ ": " ++ e ++ "\n")
    osExit 1
  | none => pure ()

/-- Source `createDirectory`. -/
def createDirectory (repoName : String) : Prog Unit := do
  let statErr ← osStat repoName
  if statErr.isNone then
    let reuse ← confirm ("⚠️  Warning: Directory 📂 '" ++ repoName ++ "' already exists.\n ▶️ Do you want to use it?")
    if !reuse then
      fmtPrint "❌ Operation canceled.\n"
      osExit 1
    fmtPrint ("📂 Using existing repository directory: " ++ repoName ++ "\n")
  else
    let mkErr ← osMkdir repoName 0o755
    match mkErr with
    | some e => logFatalf ("❌ Error creating directory: " ++ e)
    | none => pure ()
    fmtPrint ("✅ Repository directory '" ++ repoName ++ "' created successfully!\n")
  let cdErr ← osChdir repoName
  match cdErr with
  | some e => logFatalf ("❌ Error changing directory: " ++ e)
  | none => pure ()

/-- Source `main`, from the statement after `flag.Parse()`. -/
def main (o : Options) : Prog Unit := do
  if o.help then
    flagUsage
    osExit 0
  if o.name == "" then
    fmtPrint "❌ Error: Repository name is required.\n"
    flagUsage
    osExit 1
  let repoName := o.name
  fmtPrint ("⌛ Checking if repository '" ++ repoName ++ "' already exists...\n")
  let found ← repoExists repoName
  if found then
    let clone ← confirm ("⚠️  Repository '" ++ repoName ++ "' already exists on GitHub.\n ▶️ Do you want to clone it instead?")
    if clone then
      runCommand "git" ["clone", "https://github.com/YOUR_USERNAME/" ++ repoName ++ ".git"]
      fmtPrint "✅ Repository cloned successfully!\n"
      osExit 0
    let go ← confirm ("⚠️  Warning: Repository '" ++ repoName ++ "' already exists.\n ▶️ Do you want to continue and use the existing repository?")
    if !go then
      fmtPrint "❌ Operation canceled.\n"
      osExit 1
    fmtPrint ("📡 Using existing remote repository: " ++ repoName ++ "\n")
  else
    fmtPrint ("🚀 Repository '" ++ repoName ++ "' does not exist on GitHub. Proceeding with creation...\n")
  if o.createDir then
    createDirectory repoName
  runCommand "git" ["init"]
  runCommand "git" ["add", "."]
  runCommand "git" ["commit", "--allow-empty", "-m", "ci: create repository"]
  let visibility := if o.priv then "--private" else "--public"
  runCommand "gh" ["repo", "create", repoName, visibility, "--source=.", "--remote=origin", "--push"]
  fmtPrint ("✅ Repository '" ++ repoName ++ "' created successfully and synchronized with Github!\n")

/-- What is observable of a finished run. -/
structure Outcome where
  trace : List Event
  status : Nat
  cwd : List String
  stdin : List Char
  deriving DecidableEq, Repr

/-- The outcome of a finished `main`: returning from `main` is exit status 0. -/
def Result.outcome : Result Unit → Outcome
  | Result.ok _ s => { trace := s.trace, status := 0, cwd := s.cwd, stdin := s.stdin }
  | Result.exited c s => { trace := s.trace, status := c, cwd := s.cwd, stdin := s.stdin }

/-- Run `main` from the initial state: empty trace, all of standard input unread, working
directory as at program start. -/
def run (o : Options) (w : World) : Outcome :=
  (main o w { trace := [], stdin := w.stdin, cwd := [] }).outcome

/-! ## Vocabulary of the statements -/

/-- The value `confirm` returns when the unread standard input is `input`. -/
def saysYes (input : List Char) : Bool := stringsToLower (scanlnString input).1 == "y"

/-- The standard input left unread by one `confirm` call on `input`. -/
def unread (input : List Char) : List Char := (scanlnString input).2.2

/-- A white-space rune other than the newline. -/
def isBlank (r : Char) : Bool := isSpace r && r != '\n'

/-- The first white-space-delimited word of the current input line is `y` or `Y`: the
input is blanks, then that letter, then white space (the newline included) or the end
of the input. -/
def FirstWordIsY (input : List Char) : Prop :=
  ∃ lead c tail, input = lead ++ c :: tail ∧ (∀ x ∈ lead, isBlank x = true) ∧
    (c = 'y' ∨ c = 'Y') ∧ (∀ d ∈ tail.head?, isSpace d = true)

/-- The command line of the existence probe of `repoExists`. -/
def probeArgv (repoName : String) : List String := ["gh", "repo", "view", repoName]

/-- The command line of the clone step of `main`. -/
def cloneArgv (repoName : String) : List String :=
  ["git", "clone", "https://github.com/YOUR_USERNAME/" ++ repoName ++ ".git"]

/-- The command line of the remote-creation step of `main`, for visibility flag `v`. -/
def createArgv (repoName v : String) : List String :=
  ["gh", "repo", "create", repoName, v, "--source=.", "--remote=origin", "--push"]

/-- The trace line `runCommand` prints before it runs `command args`. -/
def runningLine (command : String) (args : List String) : Event :=
  Event.stdout ("\t⚙️  Running command: " ++ command ++ " " ++ stringsJoin args " " ++ "\n")

/-- The cancellation message. -/
def cancelLine : Event := Event.stdout "❌ Operation canceled.\n"

/-- The prompt of `confirm` as printed. -/
def promptLine (prompt : String) : Event := Event.stdout (prompt ++ " (y/N): ")

/-- The text of the clone prompt. -/
def clonePrompt (repoName : String) : String :=
  "⚠️  Repository '" ++ repoName ++ "' already exists on GitHub.\n ▶️ Do you want to clone it instead?"

/-- The text of the continue prompt. -/
def continuePrompt (repoName : String) : String :=
  "⚠️  Warning: Repository '" ++ repoName ++ "' already exists.\n ▶️ Do you want to continue and use the existing repository?"

/-- The text of the reuse-directory prompt. -/
def reusePrompt (repoName : String) : String :=
  "⚠️  Warning: Directory 📂 '" ++ repoName ++ "' already exists.\n ▶️ Do you want to use it?"

/-- The lines `flagUsage` prints. -/
def usageText : List Event :=
  [Event.stdout "\nUsage: create-repo [options]\n",
   Event.stdout "\nOptions:\n",
   Event.stdout "\t-name                 Repository name (required). If remote repository already exists, ask whether to clone it\n",
   Event.stdout "\t-create-dir           Create a directory for the repository (default: current directory). If the directory already exists, ask whether to reuse it\n",
   Event.stdout "\t-private              Make the repository private (default: public).\n",
   Event.stdout "\t-help                 Show this help message\n",
   Event.stdout "\nExamples:\n",
   Event.stdout "\tcreate-repo -help\n",
   Event.stdout "\tcreate-repo -name=myrepo\n",
   Event.stdout "\tcreate-repo -name=myrepo -create-dir=true\n",
   Event.stdout "\tcreate-repo -name=myrepo -private=true\n",
   Event.stdout "\tcreate-repo -name=myrepo -create-dir=true -private=true\n\n",
   Event.stdout "\n🔥 Automates repository creation with Git and GitHub CLI 🔥\n"]

/-- The event is a write to standard output. -/
def Event.isStdout : Event → Bool
  | Event.stdout _ => true
  | _ => false

/-- The event is a read of standard input. -/
def Event.isScanln : Event → Bool
  | Event.scanln _ => true
  | _ => false

/-- The event touches the file system or the working directory. -/
def Event.isFs : Event → Bool
  | Event.stat _ => true
  | Event.mkdir _ _ => true
  | Event.chdir _ => true
  | _ => false

/-- The event is a call of `os.Mkdir`. -/
def Event.isMkdir : Event → Bool
  | Event.mkdir _ _ => true
  | _ => false

/-- The event is a call of `os.Chdir`. -/
def Event.isChdir : Event → Bool
  | Event.chdir _ => true
  | _ => false

/-- The command lines of all child processes of a trace, in order. -/
def execs : List Event → List (List String)
  | [] => []
  | Event.exec argv _ :: rest => argv :: execs rest
  | _ :: rest => execs rest

/-- The command lines run through `runCommand` in a trace, in order. -/
def commands : List Event → List (List String)
  | [] => []
  | Event.exec argv true :: rest => argv :: commands rest
  | _ :: rest => commands rest

/-- The run gets past the remote-existence step of `main`: help is unset, the name is not
empty, and either the probe failed or the user declined to clone and agreed to continue. -/
def ReachesDirStep (o : Options) (w : World) : Prop :=
  o.help = false ∧ o.name ≠ "" ∧
    (w.cmdErr (probeArgv o.name) ≠ none ∨
      (saysYes w.stdin = false ∧ saysYes (unread w.stdin) = true))

/-- The standard input still unread when a run reaches the directory step. -/
def dirStepInput (o : Options) (w : World) : List Char :=
  if w.cmdErr (probeArgv o.name) = none then unread (unread w.stdin) else w.stdin

/-- Fail-fast along a trace: behind every failed `runCommand` child there is only the
`log.Fatalf` line, and the exit status is 1. -/
def FailFast (w : World) (status : Nat) : List Event → Prop
  | [] => True
  | Event.exec argv true :: rest =>
    (w.cmdErr argv ≠ none → (∃ msg, rest = [Event.fatal msg]) ∧ status = 1) ∧
      FailFast w status rest
  | _ :: rest => FailFast w status rest

/-- An environment in which the remote repository does not exist (the probe fails), no
local entry of any name exists, and every other operation succeeds. -/
def worldFresh (input : String) : World where
  stdin := input.data
  cmdErr := fun argv => if argv.take 3 = ["gh", "repo", "view"] then some "exit status 1" else none
  statErr := fun _ => some "no such file or directory"
  mkdirErr := fun _ => none
  chdirErr := fun _ => none

/-- An environment in which every operation succeeds: the remote repository exists and
so does the local entry. -/
def worldExisting (input : String) : World where
  stdin := input.data
  cmdErr := fun _ => none
  statErr := fun _ => none
  mkdirErr := fun _ => none
  chdirErr := fun _ => none

/-- An environment in which `git init` is the only child process that succeeds: the probe
fails (the remote does not exist) and so does `git add`. -/
def worldAddFails : World where
  stdin := []
  cmdErr := fun argv =>
    if argv = ["git", "init"] then none else some "exit status 1"
  statErr := fun _ => none
  mkdirErr := fun _ => none
  chdirErr := fun _ => none

/-- The state in which the directory step starts when the probe failed. -/
def notFoundState (o : Options) (w : World) : State :=
  { trace := [Event.stdout ("⌛ Checking if repository '" ++ o.name ++ "' already exists...\n"),
              Event.exec (probeArgv o.name) false,
              Event.stdout ("🚀 Repository '" ++ o.name ++ "' does not exist on GitHub. Proceeding with creation...\n")],
    stdin := w.stdin, cwd := [] }

/-- The state in which the directory step starts when the remote exists, the user
declined to clone and agreed to continue. -/
def continueState (o : Options) (w : World) : State :=
  { trace := [Event.stdout ("⌛ Checking if repository '" ++ o.name ++ "' already exists...\n"),
              Event.exec (probeArgv o.name) false,
              promptLine (clonePrompt o.name), Event.scanln (scanlnString w.stdin).1,
              promptLine (continuePrompt o.name),
              Event.scanln (scanlnString (unread w.stdin)).1,
              Event.stdout ("📡 Using existing remote repository: " ++ o.name ++ "\n")],
    stdin := unread (unread w.stdin), cwd := [] }

/-- The state in which the directory step starts, for a run that reaches it. -/
def dirStepState (o : Options) (w : World) : State :=
  if w.cmdErr (probeArgv o.name) = none then continueState o w else notFoundState o w

/-- The environment `w` with the answer to the command line `argv` replaced by `r`. -/
def World.withCmdErr (w : World) (argv : List String) (r : Option String) : World :=
  { w with cmdErr := fun a => if a = argv then r else w.cmdErr a }

/-! ## The phases of `main` -/

/-- The last five statements of `main` (the three git commands, the remote creation and
the closing message), named so that lemmas can speak about them; `main_phases` shows that
`main` runs exactly these. -/
def publishSteps (o : Options) : Prog Unit := do
  runCommand "git" ["init"]
  runCommand "git" ["add", "."]
  runCommand "git" ["commit", "--allow-empty", "-m", "ci: create repository"]
  let visibility := if o.priv then "--private" else "--public"
  runCommand "gh" ["repo", "create", o.name, visibility, "--source=.", "--remote=origin", "--push"]
  fmtPrint ("✅ Repository '" ++ o.name ++ "' created successfully and synchronized with Github!\n")

/-- The statements of `main` from the create-dir test on; see `main_phases`. -/
def localSteps (o : Options) : Prog Unit := do
  if o.createDir then
    createDirectory o.name
  publishSteps o

/-- The statements of `main` up to the create-dir test, for help unset and a non-empty
name; see `main_phases`. -/
def remoteSteps (o : Options) : Prog Unit := do
  let repoName := o.name
  fmtPrint ("⌛ Checking if repository '" ++ repoName ++ "' already exists...\n")
  let found ← repoExists repoName
  if found then
    let clone ← confirm ("⚠️  Repository '" ++ repoName ++ "' already exists on GitHub.\n ▶️ Do you want to clone it instead?")
    if clone then
      runCommand "git" ["clone", "https://github.com/YOUR_USERNAME/" ++ repoName ++ ".git"]
      fmtPrint "✅ Repository cloned successfully!\n"
      osExit 0
    let go ← confirm ("⚠️  Warning: Repository '" ++ repoName ++ "' already exists.\n ▶️ Do you want to continue and use the existing repository?")
    if !go then
      fmtPrint "❌ Operation canceled.\n"
      osExit 1
    fmtPrint ("📡 Using existing remote repository: " ++ repoName ++ "\n")
  else
    fmtPrint ("🚀 Repository '" ++ repoName ++ "' does not exist on GitHub. Proceeding with creation...\n")

/-! ## Evaluation lemmas -/

@[simp] theorem andThen_ok {α β : Type} (a : α) (s : State) (k : α → State → Result β) :
    (Result.ok a s).andThen k = k a s := rfl

@[simp] theorem andThen_exited {α β : Type} (c : Nat) (s : State) (k : α → State → Result β) :
    (Result.exited c s : Result α).andThen k = Result.exited c s := rfl

theorem andThen_ite {α β : Type} (c : Prop) [Decidable c] (a b : Result α)
    (k : α → State → Result β) :
    (if c then a else b).andThen k = if c then a.andThen k else b.andThen k := by
  split <;> rfl

theorem outcome_ite (c : Prop) [Decidable c] (a b : Result Unit) :
    (if c then a else b).outcome = if c then a.outcome else b.outcome := by
  split <;> rfl

@[simp] theorem outcome_ok (s : State) :
    (Result.ok () s).outcome = { trace := s.trace, status := 0, cwd := s.cwd, stdin := s.stdin } :=
  rfl

@[simp] theorem outcome_exited (c : Nat) (s : State) :
    (Result.exited c s : Result Unit).outcome =
      { trace := s.trace, status := c, cwd := s.cwd, stdin := s.stdin } :=
  rfl

theorem flagUsage_eval (w : World) (s : State) :
    flagUsage w s = Result.ok () { s with trace := s.trace ++ usageText } := by
  simp [flagUsage, fmtPrint, emit, bind, usageText, programName]

theorem confirm_eval (p : String) (w : World) (s : State) :
    confirm p w s = Result.ok (saysYes s.stdin)
      { trace := s.trace ++ [promptLine p, Event.scanln (scanlnString s.stdin).1],
        stdin := unread s.stdin, cwd := s.cwd } := by
  simp [confirm, fmtPrint, emit, fmtScanln, bind, pure, saysYes, unread, promptLine]

theorem repoExists_eval (n : String) (w : World) (s : State) :
    repoExists n w s = Result.ok (w.cmdErr (probeArgv n)).isNone
      { s with trace := s.trace ++ [Event.exec (probeArgv n) false] } := by
  simp [repoExists, cmdRun, bind, pure, probeArgv]

theorem runCommand_eval (c : String) (args : List String) (w : World) (s : State) :
    runCommand c args w s =
      if w.cmdErr (c :: args) = none then
        Result.ok ()
          { s with trace := s.trace ++ [runningLine c args, Event.exec (c :: args) true] }
      else
        Result.exited 1
          { s with trace := s.trace ++ [runningLine c args, Event.exec (c :: args) true,
              Event.fatal ("❌ Error running command " ++ c ++ " " ++ fmtSliceV args ++ ": " ++
                (w.cmdErr (c :: args)).getD "" ++ "\n")] } := by
  simp only [runCommand, fmtPrint, emit, cmdRun, bind, pure, logFatalf, osExit, runningLine]
  cases h : w.cmdErr (c :: args) <;> simp [h]

theorem createDirectory_eval (n : String) (w : World) (s : State) :
    createDirectory n w s =
      if w.statErr n = none then
        if saysYes s.stdin = true then
          if w.chdirErr n = none then
            Result.ok ()
              { trace := s.trace ++ [Event.stat n, promptLine (reusePrompt n),
                  Event.scanln (scanlnString s.stdin).1,
                  Event.stdout ("📂 Using existing repository directory: " ++ n ++ "\n"),
                  Event.chdir n], stdin := unread s.stdin, cwd := s.cwd ++ [n] }
          else
            Result.exited 1
              { trace := s.trace ++ [Event.stat n, promptLine (reusePrompt n),
                  Event.scanln (scanlnString s.stdin).1,
                  Event.stdout ("📂 Using existing repository directory: " ++ n ++ "\n"),
                  Event.chdir n,
                  Event.fatal ("❌ Error changing directory: " ++ (w.chdirErr n).getD "")], stdin := unread s.stdin, cwd := s.cwd }
        else
          Result.exited 1
            { trace := s.trace ++ [Event.stat n, promptLine (reusePrompt n),
                Event.scanln (scanlnString s.stdin).1, cancelLine], stdin := unread s.stdin, cwd := s.cwd }
      else if w.mkdirErr n = none then
        if w.chdirErr n = none then
          Result.ok ()
            { trace := s.trace ++ [Event.stat n, Event.mkdir n 0o755,
                Event.stdout ("✅ Repository directory '" ++ n ++ "' created successfully!\n"),
                Event.chdir n], stdin := s.stdin, cwd := s.cwd ++ [n] }
        else
          Result.exited 1
            { trace := s.trace ++ [Event.stat n, Event.mkdir n 0o755,
                Event.stdout ("✅ Repository directory '" ++ n ++ "' created successfully!\n"),
                Event.chdir n,
                Event.fatal ("❌ Error changing directory: " ++ (w.chdirErr n).getD "")], stdin := s.stdin, cwd := s.cwd }
      else
        Result.exited 1
          { trace := s.trace ++ [Event.stat n, Event.mkdir n 0o755,
              Event.fatal ("❌ Error creating directory: " ++ (w.mkdirErr n).getD "")], stdin := s.stdin, cwd := s.cwd } := by
  simp only [createDirectory, confirm_eval, osStat, osMkdir, osChdir, fmtPrint, emit, bind, pure,
    logFatalf, osExit, andThen_ok, cancelLine]
  cases h1 : w.statErr n <;> cases h2 : w.mkdirErr n <;> cases h3 : w.chdirErr n <;>
    cases h4 : saysYes s.stdin <;> simp [h1, h2, h3, h4, logFatalf, reusePrompt]

/-! ## Evaluation of the phases -/

theorem andThen_assoc {α β γ : Type} (r : Result α) (f : α → State → Result β)
    (g : β → State → Result γ) :
    (r.andThen f).andThen g = r.andThen (fun a s => (f a s).andThen g) := by
  cases r <;> rfl

/-- The run of `main` is the help test, the name test, then the three phases in order. -/
theorem main_phases (o : Options) (w : World) (s : State) :
    main o w s =
      if o.help = true then Result.exited 0 { s with trace := s.trace ++ usageText }
      else if o.name = "" then
        Result.exited 1
          { s with trace := s.trace ++
              Event.stdout "❌ Error: Repository name is required.\n" :: usageText }
      else (remoteSteps o w s).andThen (fun _ s1 => localSteps o w s1) := by
  by_cases hh : o.help = true
  · simp [main, bind, pure, flagUsage_eval, osExit, hh]
  · by_cases hn : o.name = ""
    · simp [main, bind, pure, flagUsage_eval, osExit, fmtPrint, emit, hh, hn]
    · by_cases h3 : w.cmdErr (probeArgv o.name) = none <;>
        by_cases h4 : saysYes s.stdin = true <;>
        by_cases h5 : saysYes (unread s.stdin) = true <;>
        simp [main, remoteSteps, localSteps, publishSteps, bind, pure, repoExists_eval,
          confirm_eval, fmtPrint, emit, osExit, andThen_assoc, ite_apply, andThen_ite, hh, hn,
          h3, h4, h5]

theorem remoteSteps_eval (o : Options) (w : World) (s : State) :
    remoteSteps o w s =
      if w.cmdErr (probeArgv o.name) = none then
        if saysYes s.stdin = true then
          if w.cmdErr (cloneArgv o.name) = none then
            Result.exited 0
              { trace := s.trace ++
                  [Event.stdout ("⌛ Checking if repository '" ++ o.name ++ "' already exists...\n"),
                   Event.exec (probeArgv o.name) false,
                   promptLine (clonePrompt o.name), Event.scanln (scanlnString s.stdin).1,
                   runningLine "git" (cloneArgv o.name).tail,
                   Event.exec (cloneArgv o.name) true,
                   Event.stdout "✅ Repository cloned successfully!\n"],
                stdin := unread s.stdin, cwd := s.cwd }
          else
            Result.exited 1
              { trace := s.trace ++
                  [Event.stdout ("⌛ Checking if repository '" ++ o.name ++ "' already exists...\n"),
                   Event.exec (probeArgv o.name) false,
                   promptLine (clonePrompt o.name), Event.scanln (scanlnString s.stdin).1,
                   runningLine "git" (cloneArgv o.name).tail,
                   Event.exec (cloneArgv o.name) true,
                   Event.fatal ("❌ Error running command git " ++ fmtSliceV (cloneArgv o.name).tail ++
                     ": " ++ (w.cmdErr (cloneArgv o.name)).getD "" ++ "\n")],
                stdin := unread s.stdin, cwd := s.cwd }
        else if saysYes (unread s.stdin) = true then
          Result.ok ()
            { trace := s.trace ++
                [Event.stdout ("⌛ Checking if repository '" ++ o.name ++ "' already exists...\n"),
                 Event.exec (probeArgv o.name) false,
                 promptLine (clonePrompt o.name), Event.scanln (scanlnString s.stdin).1,
                 promptLine (continuePrompt o.name),
                 Event.scanln (scanlnString (unread s.stdin)).1,
                 Event.stdout ("📡 Using existing remote repository: " ++ o.name ++ "\n")],
              stdin := unread (unread s.stdin), cwd := s.cwd }
        else
          Result.exited 1
            { trace := s.trace ++
                [Event.stdout ("⌛ Checking if repository '" ++ o.name ++ "' already exists...\n"),
                 Event.exec (probeArgv o.name) false,
                 promptLine (clonePrompt o.name), Event.scanln (scanlnString s.stdin).1,
                 promptLine (continuePrompt o.name),
                 Event.scanln (scanlnString (unread s.stdin)).1,
                 cancelLine],
              stdin := unread (unread s.stdin), cwd := s.cwd }
      else
        Result.ok ()
          { trace := s.trace ++
              [Event.stdout ("⌛ Checking if repository '" ++ o.name ++ "' already exists...\n"),
               Event.exec (probeArgv o.name) false,
               Event.stdout ("🚀 Repository '" ++ o.name ++ "' does not exist on GitHub. Proceeding with creation...\n")],
            stdin := s.stdin, cwd := s.cwd } := by
  by_cases h3 : w.cmdErr (probeArgv o.name) = none <;>
    by_cases h4 : saysYes s.stdin = true <;>
    by_cases h5 : saysYes (unread s.stdin) = true <;>
    by_cases h6 : w.cmdErr (cloneArgv o.name) = none <;>
    simp [remoteSteps, bind, pure, repoExists_eval, confirm_eval, runCommand_eval, fmtPrint,
      emit, osExit, h3, h4, h5, clonePrompt, continuePrompt, cancelLine] <;>
    simp only [cloneArgv] at h6 ⊢ <;>
    simp [h6]

theorem localSteps_eval (o : Options) (w : World) (s : State) :
    localSteps o w s =
      if o.createDir = true then
        (createDirectory o.name w s).andThen (fun _ s1 => publishSteps o w s1)
      else publishSteps o w s := by
  by_cases h : o.createDir = true <;> simp [localSteps, bind, pure, h]

theorem publishSteps_eval (o : Options) (w : World) (s : State) :
    publishSteps o w s =
      if w.cmdErr ["git", "init"] = none then
        if w.cmdErr ["git", "add", "."] = none then
          if w.cmdErr ["git", "commit", "--allow-empty", "-m", "ci: create repository"] = none then
            if w.cmdErr (createArgv o.name (if o.priv = true then "--private" else "--public")) = none then
              Result.ok ()
                { s with trace := s.trace ++
                    [runningLine "git" ["init"], Event.exec ["git", "init"] true,
                     runningLine "git" ["add", "."], Event.exec ["git", "add", "."] true,
                     runningLine "git" ["commit", "--allow-empty", "-m", "ci: create repository"],
                     Event.exec ["git", "commit", "--allow-empty", "-m", "ci: create repository"] true,
                     runningLine "gh" (createArgv o.name (if o.priv = true then "--private" else "--public")).tail,
                     Event.exec (createArgv o.name (if o.priv = true then "--private" else "--public")) true,
                     Event.stdout ("✅ Repository '" ++ o.name ++ "' created successfully and synchronized with Github!\n")] }
            else
              Result.exited 1
                { s with trace := s.trace ++
                    [runningLine "git" ["init"], Event.exec ["git", "init"] true,
                     runningLine "git" ["add", "."], Event.exec ["git", "add", "."] true,
                     runningLine "git" ["commit", "--allow-empty", "-m", "ci: create repository"],
                     Event.exec ["git", "commit", "--allow-empty", "-m", "ci: create repository"] true,
                     runningLine "gh" (createArgv o.name (if o.priv = true then "--private" else "--public")).tail,
                     Event.exec (createArgv o.name (if o.priv = true then "--private" else "--public")) true,
                     Event.fatal ("❌ Error running command gh " ++
                       fmtSliceV (createArgv o.name (if o.priv = true then "--private" else "--public")).tail ++ ": " ++
                       (w.cmdErr (createArgv o.name (if o.priv = true then "--private" else "--public"))).getD "" ++ "\n")] }
          else
            Result.exited 1
              { s with trace := s.trace ++
                  [runningLine "git" ["init"], Event.exec ["git", "init"] true,
                   runningLine "git" ["add", "."], Event.exec ["git", "add", "."] true,
                   runningLine "git" ["commit", "--allow-empty", "-m", "ci: create repository"],
                   Event.exec ["git", "commit", "--allow-empty", "-m", "ci: create repository"] true,
                   Event.fatal ("❌ Error running command git " ++
                     fmtSliceV ["commit", "--allow-empty", "-m", "ci: create repository"] ++ ": " ++
                     (w.cmdErr ["git", "commit", "--allow-empty", "-m", "ci: create repository"]).getD "" ++ "\n")] }
        else
          Result.exited 1
            { s with trace := s.trace ++
                [runningLine "git" ["init"], Event.exec ["git", "init"] true,
                 runningLine "git" ["add", "."], Event.exec ["git", "add", "."] true,
                 Event.fatal ("❌ Error running command git " ++ fmtSliceV ["add", "."] ++ ": " ++
                   (w.cmdErr ["git", "add", "."]).getD "" ++ "\n")] }
      else
        Result.exited 1
          { s with trace := s.trace ++
              [runningLine "git" ["init"], Event.exec ["git", "init"] true,
               Event.fatal ("❌ Error running command git " ++ fmtSliceV ["init"] ++ ": " ++
                 (w.cmdErr ["git", "init"]).getD "" ++ "\n")] } := by
  by_cases h1 : w.cmdErr ["git", "init"] = none <;>
    by_cases h2 : w.cmdErr ["git", "add", "."] = none <;>
    by_cases h3 : w.cmdErr ["git", "commit", "--allow-empty", "-m", "ci: create repository"] = none <;>
    by_cases h4 : w.cmdErr (createArgv o.name (if o.priv = true then "--private" else "--public")) = none <;>
    simp only [createArgv, List.tail_cons] at h4 ⊢ <;>
    simp [publishSteps, bind, pure, runCommand_eval, fmtPrint, emit, h1, h2, h3, h4]

theorem run_phases (o : Options) (w : World) (hh : o.help = false) (hn : o.name ≠ "") :
    run o w = ((remoteSteps o w { trace := [], stdin := w.stdin, cwd := [] }).andThen
      (fun _ s1 => localSteps o w s1)).outcome := by
  simp [run, main_phases, hh, hn]

theorem run_of_reaches (o : Options) (w : World) (h : ReachesDirStep o w) :
    run o w = (localSteps o w (dirStepState o w)).outcome := by
  obtain ⟨hh, hn, h3⟩ := h
  rw [run_phases o w hh hn, remoteSteps_eval]
  by_cases hp : w.cmdErr (probeArgv o.name) = none
  · have h4 := h3.resolve_left (not_not.2 hp)
    simp [hp, h4.1, h4.2, dirStepState, continueState]
  · simp [hp, dirStepState, notFoundState]

theorem dirStepState_facts (o : Options) (w : World) :
    (dirStepState o w).stdin = dirStepInput o w ∧ (dirStepState o w).cwd = [] ∧
      execs (dirStepState o w).trace = [probeArgv o.name] ∧
      commands (dirStepState o w).trace = [] ∧
      (∀ e ∈ (dirStepState o w).trace, e.isFs = false) := by
  unfold dirStepState dirStepInput
  split_ifs <;>
    simp [continueState, notFoundState, execs, commands, Event.isFs, promptLine]

theorem execs_append (a b : List Event) : execs (a ++ b) = execs a ++ execs b := by
  induction a with
  | nil => rfl
  | cons e t ih => cases e <;> simp [execs, ih]

theorem commands_append (a b : List Event) : commands (a ++ b) = commands a ++ commands b := by
  induction a with
  | nil => rfl
  | cons e t ih =>
    cases e with
    | exec argv inherit => cases inherit <;> simp [commands, ih]
    | _ => simp [commands, ih]

theorem publishSteps_chdir (o : Options) (w : World) (s : State) :
    (publishSteps o w s).outcome.trace.countP Event.isChdir = s.trace.countP Event.isChdir ∧
      (publishSteps o w s).outcome.cwd = s.cwd := by
  rw [publishSteps_eval]
  split_ifs <;> simp [List.countP_append, List.countP_cons, Event.isChdir, runningLine]

theorem localSteps_chdir (o : Options) (w : World) (s : State) :
    (localSteps o w s).outcome.trace.countP Event.isChdir ≤ s.trace.countP Event.isChdir + 1 ∧
      (localSteps o w s).outcome.cwd.length ≤ s.cwd.length + 1 ∧
      (o.createDir = false →
        (localSteps o w s).outcome.trace.countP Event.isChdir = s.trace.countP Event.isChdir ∧
        (localSteps o w s).outcome.cwd = s.cwd) := by
  rw [localSteps_eval]
  by_cases hd : o.createDir = true
  · rw [if_pos hd, createDirectory_eval]
    split_ifs <;>
      simp [publishSteps_chdir, List.countP_append, List.countP_cons, Event.isChdir, promptLine,
        cancelLine, hd]
  · rw [if_neg hd]
    simp [publishSteps_chdir]

theorem dirStepState_chdir (o : Options) (w : World) :
    (dirStepState o w).trace.countP Event.isChdir = 0 := by
  unfold dirStepState
  split_ifs <;> simp [continueState, notFoundState, Event.isChdir, List.countP_cons, promptLine]

/-- Every run calls `os.Chdir` at most once, and a run with create-dir unset never does and
ends in the directory it started in. -/
theorem run_chdir (o : Options) (w : World) :
    (run o w).trace.countP Event.isChdir ≤ 1 ∧ (run o w).cwd.length ≤ 1 ∧
      (o.createDir = false → (run o w).trace.countP Event.isChdir = 0 ∧ (run o w).cwd = []) := by
  by_cases hh : o.help = true
  · simp [run, main_phases, hh, usageText, Event.isChdir, List.countP_cons]
  by_cases hn : o.name = ""
  · simp [run, main_phases, hh, hn, usageText, Event.isChdir, List.countP_cons]
  by_cases hr : ReachesDirStep o w
  · rw [run_of_reaches o w hr]
    have h := localSteps_chdir o w (dirStepState o w)
    rw [dirStepState_chdir, (dirStepState_facts o w).2.1] at h
    simpa using h
  · rw [run_phases o w (by simpa using hh) hn, remoteSteps_eval]
    simp only [ReachesDirStep, not_and, not_or, not_not] at hr
    have h3 := hr (by simpa using hh) hn
    by_cases h1 : saysYes w.stdin = true
    · simp only [h3.1, h1, if_true]
      split_ifs <;> simp [Event.isChdir, List.countP_cons, promptLine, runningLine]
    · have h2 : ¬ saysYes (unread w.stdin) = true := h3.2 (by simpa using h1)
      simp [h3.1, h1, h2, Event.isChdir, List.countP_cons, promptLine, cancelLine]

/-! ## Scanning: what `confirm` accepts and consumes -/

theorem toLower_eq_y (c : Char) : c.toLower = 'y' ↔ c = 'y' ∨ c = 'Y' := by
  constructor
  · intro h
    unfold Char.toLower at h
    simp only at h
    split at h
    · rename_i hr
      right
      have h1 : c.toNat = 89 := by
        obtain ⟨h65, h90⟩ := hr
        have := congrArg Char.toNat h
        generalize c.toNat = n at *
        interval_cases n <;> simp_all
      apply Char.ext
      apply UInt32.ext
      exact h1
    · left; exact h
  · rintro (h | h) <;> subst h <;> decide

theorem lower_eq_y (s : String) : (stringsToLower s == "y") = true ↔ s = "y" ∨ s = "Y" := by
  unfold stringsToLower
  rw [beq_iff_eq]
  constructor
  · intro h
    have h1 : s.data.map Char.toLower = ['y'] := congrArg String.data h
    rcases hs : s.data with _ | ⟨c, _ | ⟨d, t⟩⟩
    · rw [hs] at h1; simp at h1
    · rw [hs] at h1
      simp only [List.map, List.cons.injEq, and_true] at h1
      rcases (toLower_eq_y c).1 h1 with h2 | h2
      · left; apply String.ext; rw [hs, h2]
      · right; apply String.ext; rw [hs, h2]
    · rw [hs] at h1; simp at h1
  · rintro (h | h) <;> subst h <;> decide

theorem skipSpace_blank_append (lead rest : List Char) (h : ∀ x ∈ lead, isBlank x = true) :
    skipSpace (lead ++ rest) = skipSpace rest := by
  induction lead with
  | nil => rfl
  | cons a t ih =>
    have ha : isBlank a = true := h a (List.mem_cons_self a t)
    simp only [isBlank, Bool.and_eq_true, bne_iff_ne, ne_eq] at ha
    simp only [List.cons_append, skipSpace, ha.2, ha.1, if_false, if_true]
    exact ih (fun x hx => h x (List.mem_cons_of_mem a hx))

theorem afterNewline_blank_append (lead rest : List Char) (h : ∀ x ∈ lead, isBlank x = true) :
    afterNewline (lead ++ rest) = afterNewline rest := by
  induction lead with
  | nil => rfl
  | cons a t ih =>
    have ha : isBlank a = true := h a (List.mem_cons_self a t)
    simp only [isBlank, Bool.and_eq_true, bne_iff_ne, ne_eq] at ha
    simp only [List.cons_append, afterNewline, ha.2, if_false]
    exact ih (fun x hx => h x (List.mem_cons_of_mem a hx))

theorem skipSpace_some_inv (input out : List Char) (h : skipSpace input = some out) :
    ∃ lead, input = lead ++ out ∧ (∀ x ∈ lead, isBlank x = true) ∧
      (∀ r ∈ out.head?, isSpace r = false) := by
  induction input with
  | nil =>
    simp only [skipSpace, Option.some.injEq] at h
    subst h
    exact ⟨[], rfl, by simp, by simp⟩
  | cons a t ih =>
    simp only [skipSpace] at h
    split at h
    · exact absurd h (by simp)
    · rename_i hnl
      split at h
      · rename_i hsp
        obtain ⟨lead, h1, h2, h3⟩ := ih h
        refine ⟨a :: lead, by rw [h1]; rfl, ?_, h3⟩
        intro x hx
        rcases List.mem_cons.1 hx with hx | hx
        · subst hx; simp [isBlank, hsp, hnl]
        · exact h2 x hx
      · rename_i hsp
        simp only [Option.some.injEq] at h
        subst h
        exact ⟨[], rfl, by simp, by simpa using hsp⟩

theorem token_word_append (word rest : List Char) (hw : ∀ x ∈ word, notSpace x = true)
    (hr : ∀ d ∈ rest.head?, isSpace d = true) : token (word ++ rest) = (word, rest) := by
  induction word with
  | nil =>
    cases rest with
    | nil => rfl
    | cons d t =>
      have hd : isSpace d = true := hr d (by simp)
      simp [token, notSpace, hd]
  | cons a t ih =>
    have ha : notSpace a = true := hw a (List.mem_cons_self a t)
    have := ih (fun x hx => hw x (List.mem_cons_of_mem a hx))
    simp [token, ha, this]

theorem token_inv (l : List Char) :
    l = (token l).1 ++ (token l).2 ∧ (∀ x ∈ (token l).1, notSpace x = true) ∧
      (∀ d ∈ (token l).2.head?, isSpace d = true) := by
  induction l with
  | nil => simp [token]
  | cons a t ih =>
    by_cases ha : notSpace a = true
    · obtain ⟨h1, h2, h3⟩ := ih
      simp only [token, ha, if_true]
      refine ⟨by simpa using h1, ?_, h3⟩
      intro x hx
      rcases List.mem_cons.1 hx with hx | hx
      · subst hx; exact ha
      · exact h2 x hx
    · simp only [token, ha, Bool.false_eq_true, if_false]
      refine ⟨by simp, by simp, ?_⟩
      simpa [notSpace] using ha

theorem expectNewline_blank_newline (trail rest : List Char) (h : ∀ x ∈ trail, isBlank x = true) :
    expectNewline (trail ++ '\n' :: rest) = (false, rest) := by
  induction trail with
  | nil => simp [expectNewline]
  | cons a t ih =>
    have ha : isBlank a = true := h a (List.mem_cons_self a t)
    simp only [isBlank, Bool.and_eq_true, bne_iff_ne, ne_eq] at ha
    simp only [List.cons_append, expectNewline, ha.2, ha.1, if_false, if_true]
    exact ih (fun x hx => h x (List.mem_cons_of_mem a hx))

theorem expectNewline_blank_eof (trail : List Char) (h : ∀ x ∈ trail, isBlank x = true) :
    expectNewline trail = (false, []) := by
  induction trail with
  | nil => simp [expectNewline]
  | cons a t ih =>
    have ha : isBlank a = true := h a (List.mem_cons_self a t)
    simp only [isBlank, Bool.and_eq_true, bne_iff_ne, ne_eq] at ha
    simp only [expectNewline, ha.2, ha.1, if_false, if_true]
    exact ih (fun x hx => h x (List.mem_cons_of_mem a hx))

theorem saysYes_iff (input : List Char) : saysYes input = true ↔ FirstWordIsY input := by
  unfold saysYes
  rw [lower_eq_y]
  constructor
  · intro h
    unfold scanlnString at h
    split at h
    · simp at h
    · simp at h
    · rename_i r rest hs
      obtain ⟨lead, h1, h2, _⟩ := skipSpace_some_inv _ _ hs
      obtain ⟨t1, t2, t3⟩ := token_inv (r :: rest)
      simp only at h
      have key : ∀ c, (token (r :: rest)).1 = [c] → (c = 'y' ∨ c = 'Y') → FirstWordIsY input := by
        intro c hc hy
        refine ⟨lead, c, (token (r :: rest)).2, ?_, h2, hy, t3⟩
        rw [h1]
        conv_lhs => rw [t1, hc]
        rfl
      rcases h with h | h
      · exact key 'y' (congrArg String.data h) (Or.inl rfl)
      · exact key 'Y' (congrArg String.data h) (Or.inr rfl)
  · rintro ⟨lead, c, tail, h1, h2, h3, h4⟩
    have hc : c ≠ '\n' ∧ isSpace c = false := by
      rcases h3 with h | h <;> subst h <;> decide
    have hs : skipSpace input = some (c :: tail) := by
      rw [h1, skipSpace_blank_append _ _ h2]
      simp [skipSpace, hc.1, hc.2]
    have ht : token (c :: tail) = ([c], tail) :=
      token_word_append [c] tail (by simp [notSpace, hc.2]) h4
    unfold scanlnString
    rw [hs]
    simp only [ht]
    rcases h3 with h | h <;> subst h
    · left; rfl
    · right; rfl

theorem head_blank_newline (trail rest : List Char) (h : ∀ x ∈ trail, isBlank x = true) :
    ∀ d ∈ (trail ++ '\n' :: rest).head?, isSpace d = true := by
  cases trail with
  | nil => intro d hd; simp at hd; subst hd; decide
  | cons a t =>
    intro d hd
    simp at hd
    subst hd
    have := h a (List.mem_cons_self a t)
    simp only [isBlank, Bool.and_eq_true] at this
    exact this.1

theorem head_blank (trail : List Char) (h : ∀ x ∈ trail, isBlank x = true) :
    ∀ d ∈ trail.head?, isSpace d = true := by
  cases trail with
  | nil => simp
  | cons a t =>
    intro d hd
    simp at hd
    subst hd
    have := h a (List.mem_cons_self a t)
    simp only [isBlank, Bool.and_eq_true] at this
    exact this.1

theorem unread_single_word (lead word trail : List Char)
    (hl : ∀ x ∈ lead, isBlank x = true) (hw : ∀ x ∈ word, notSpace x = true)
    (ht : ∀ x ∈ trail, isBlank x = true) :
    (∀ rest, unread (lead ++ word ++ trail ++ '\n' :: rest) = rest) ∧
      unread (lead ++ word ++ trail) = [] := by
  cases word with
  | nil =>
    constructor
    · intro rest
      have h1 : skipSpace (lead ++ [] ++ trail ++ '\n' :: rest) = none := by
        rw [List.append_nil, List.append_assoc, skipSpace_blank_append _ _ hl,
          skipSpace_blank_append _ _ ht]
        simp [skipSpace]
      have h2 : afterNewline (lead ++ [] ++ trail ++ '\n' :: rest) = rest := by
        rw [List.append_nil, List.append_assoc, afterNewline_blank_append _ _ hl,
          afterNewline_blank_append _ _ ht]
        simp [afterNewline]
      simp only [unread, scanlnString, h1, h2]
    · have h1 : skipSpace (lead ++ [] ++ trail) = some [] := by
        rw [List.append_nil, ← List.append_nil (lead ++ trail), List.append_assoc,
          skipSpace_blank_append _ _ hl, skipSpace_blank_append _ _ ht]
        rfl
      simp only [unread, scanlnString, h1]
  | cons a t =>
    have ha : notSpace a = true := hw a (List.mem_cons_self a t)
    have ha1 : isSpace a = false := by simpa [notSpace] using ha
    have ha2 : a ≠ '\n' := by
      intro h; subst h; revert ha1; decide
    constructor
    · intro rest
      have h1 : skipSpace (lead ++ (a :: t) ++ trail ++ '\n' :: rest) =
          some (a :: (t ++ (trail ++ '\n' :: rest))) := by
        rw [List.append_assoc, List.append_assoc, skipSpace_blank_append _ _ hl]
        simp [skipSpace, ha1, ha2]
      have h2 : token (a :: (t ++ (trail ++ '\n' :: rest))) = (a :: t, trail ++ '\n' :: rest) :=
        token_word_append (a :: t) _ hw (head_blank_newline trail rest ht)
      simp only [unread, scanlnString, h1, h2, expectNewline_blank_newline _ _ ht]
    · have h1 : skipSpace (lead ++ (a :: t) ++ trail) = some (a :: (t ++ trail)) := by
        rw [List.append_assoc, skipSpace_blank_append _ _ hl]
        simp [skipSpace, ha1, ha2]
      have h2 : token (a :: (t ++ trail)) = (a :: t, trail) :=
        token_word_append (a :: t) _ hw (head_blank trail ht)
      simp only [unread, scanlnString, h1, h2, expectNewline_blank_eof _ ht]

/-- C2, refuted as stated: on the input line `y n` the call returns true, although the
trimmed line is not `y`, and it leaves the newline of that line unread. -/
theorem confirm_accepts_y_n :
    confirm "Proceed?" (worldExisting "") { trace := [], stdin := "y n\n".data, cwd := [] } =
      Result.ok true
        { trace := [Event.stdout "Proceed? (y/N): ", Event.scanln "y"], stdin := ['\n'], cwd := [] } := by
  rfl

/-- C2, amended: in every state `confirm` prints the prompt with the suffix ` (y/N): `,
calls `fmt.Scanln` once and returns; it returns true exactly when the first
white-space-delimited word of the current input line is `y` or `Y`; and when that line
holds at most one word the call consumes the line together with its newline (or the
whole input when the line is the last one and is not terminated). -/
theorem confirm_reads_first_word (prompt : String) (w : World) (s : State) :
    ∃ b s1, confirm prompt w s = Result.ok b s1 ∧
      (b = true ↔ FirstWordIsY s.stdin) ∧
      (∃ response, s1.trace = s.trace ++ [Event.stdout (prompt ++ " (y/N): "), Event.scanln response]) ∧
      s1.cwd = s.cwd ∧
      (∀ lead word trail, (∀ x ∈ lead, isBlank x = true) → (∀ x ∈ word, notSpace x = true) →
        (∀ x ∈ trail, isBlank x = true) →
          (∀ rest, s.stdin = lead ++ word ++ trail ++ '\n' :: rest → s1.stdin = rest) ∧
          (s.stdin = lead ++ word ++ trail → s1.stdin = [])) := by
  refine ⟨_, _, confirm_eval prompt w s, saysYes_iff s.stdin, ⟨_, rfl⟩, rfl, ?_⟩
  intro lead word trail hl hw ht
  obtain ⟨h1, h2⟩ := unread_single_word lead word trail hl hw ht
  constructor
  · intro rest hs
    simp only [hs]
    exact h1 rest
  · intro hs
    simp only [hs]
    exact h2

/-- C2 amended, at concrete inputs: ` Y ` followed by a newline is accepted and consumed
with its newline; an empty line is refused and consumed. -/
theorem confirm_reads_first_word_witness :
    (∃ s1, confirm "Proceed?" (worldExisting "") { trace := [], stdin := " Y \nrest".data, cwd := [] } =
        Result.ok true s1 ∧ s1.stdin = "rest".data) ∧
    (∃ s1, confirm "Proceed?" (worldExisting "") { trace := [], stdin := "\nrest".data, cwd := [] } =
        Result.ok false s1 ∧ s1.stdin = "rest".data) := by
  constructor
  · obtain ⟨b, s1, h1, h2, _, _, h5⟩ := confirm_reads_first_word "Proceed?" (worldExisting "")
      { trace := [], stdin := " Y \nrest".data, cwd := [] }
    have hb : b = true := h2.2 ⟨[' '], 'Y', " \nrest".data, rfl, by decide, Or.inr rfl, by decide⟩
    subst hb
    exact ⟨s1, h1, (h5 [' '] ['Y'] [' '] (by decide) (by decide) (by decide)).1 "rest".data rfl⟩
  · exact ⟨_, rfl, rfl⟩

/-! ## Help and missing name -/

/-- C8. When the help option is set, whatever the other options and the environment, the
run prints exactly the usage text and exits with status 0: it reads nothing from standard
input, leaves the working directory alone, and its trace holds no file-system call and no
child process (the existence probe included). -/
theorem help_prints_usage_and_exits_zero (o : Options) (w : World) (hh : o.help = true) :
    run o w = { trace := usageText, status := 0, cwd := [], stdin := w.stdin } ∧
      (∀ e ∈ (run o w).trace, e.isStdout = true) ∧ execs (run o w).trace = [] := by
  have h : run o w = { trace := usageText, status := 0, cwd := [], stdin := w.stdin } := by
    simp [run, main, bind, flagUsage_eval, osExit, hh]
  rw [h]
  refine ⟨rfl, ?_, ?_⟩
  · simp [usageText, Event.isStdout]
  · simp [usageText, execs]

/-- C8, at a concrete input: help set together with an empty name and both other flags. -/
theorem help_prints_usage_and_exits_zero_witness :
    (run ⟨"", true, true, true⟩ (worldExisting "y\n")).status = 0 ∧
      (run ⟨"", true, true, true⟩ (worldExisting "y\n")).stdin = ['y', '\n'] ∧
      execs (run ⟨"", true, true, true⟩ (worldExisting "y\n")).trace = [] :=
  have h := help_prints_usage_and_exits_zero ⟨"", true, true, true⟩ (worldExisting "y\n") rfl
  ⟨by rw [h.1], by rw [h.1]; rfl, h.2.2⟩

/-- C1, refuted as stated: for the white-space-only name `" "` with help unset, in an
environment where the remote does not exist and every command succeeds, the run starts
the existence probe and four more child processes and exits with status 0. -/
theorem blank_name_is_accepted :
    " ".data.all isSpace = true ∧
    (run ⟨" ", false, false, false⟩ (worldFresh "")).status = 0 ∧
      execs (run ⟨" ", false, false, false⟩ (worldFresh "")).trace =
        [["gh", "repo", "view", " "], ["git", "init"], ["git", "add", "."],
         ["git", "commit", "--allow-empty", "-m", "ci: create repository"],
         ["gh", "repo", "create", " ", "--public", "--source=.", "--remote=origin", "--push"]] :=
  ⟨rfl, rfl, rfl⟩

theorem publishSteps_extends (o : Options) (w : World) (s : State) :
    ∃ t, (publishSteps o w s).outcome.trace = s.trace ++ t := by
  rw [publishSteps_eval]
  generalize (if o.priv = true then "--private" else "--public") = v
  split_ifs <;> exact ⟨_, rfl⟩

theorem localSteps_extends (o : Options) (w : World) (s : State) :
    ∃ t, (localSteps o w s).outcome.trace = s.trace ++ t := by
  rw [localSteps_eval]
  by_cases hd : o.createDir = true
  · rw [if_pos hd, createDirectory_eval]
    split_ifs <;> simp only [andThen_ok, andThen_exited, outcome_exited] <;>
      first
        | exact ⟨_, rfl⟩
        | (obtain ⟨t, ht⟩ := publishSteps_extends o w _
           exact ⟨_, by rw [ht, List.append_assoc]⟩)
  · rw [if_neg hd]
    exact publishSteps_extends o w s

/-- With help unset, every run on a non-empty name starts with the checking line and the
existence probe for exactly that name. -/
theorem run_starts_with_probe (o : Options) (w : World) (hh : o.help = false)
    (hn : o.name ≠ "") :
    ∃ post, (run o w).trace =
      Event.stdout ("⌛ Checking if repository '" ++ o.name ++ "' already exists...\n") ::
        Event.exec (probeArgv o.name) false :: post := by
  by_cases hr : ReachesDirStep o w
  · rw [run_of_reaches o w hr]
    obtain ⟨t, ht⟩ := localSteps_extends o w (dirStepState o w)
    rw [ht]
    unfold dirStepState
    split_ifs <;> exact ⟨_, rfl⟩
  · rw [run_phases o w hh hn, remoteSteps_eval]
    simp only [ReachesDirStep, not_and, not_or, not_not] at hr
    have h3 := hr hh hn
    by_cases h1 : saysYes w.stdin = true
    · simp only [h3.1, h1, if_true]
      split_ifs <;> exact ⟨_, rfl⟩
    · have h2 : ¬ saysYes (unread w.stdin) = true := h3.2 (by simpa using h1)
      simp only [h3.1, h1, h2, if_true, if_false]
      exact ⟨_, rfl⟩

/-- C1, amended: with help unset, in every environment, the empty string is the only name
that is rejected.  For the empty name the run prints the error line and the usage text and
exits with status 1; it starts no child process, touches no file and reads no input.  Every
other name, a name of white space only included, is not rejected but used as the
repository name: the run does not open with the error line, it prints the checking line
and starts the existence probe `gh repo view` on that very name as its first child
process. -/
theorem only_empty_name_is_rejected (o : Options) (w : World) (hh : o.help = false) :
    (o.name = "" →
      run o w = { trace := Event.stdout "❌ Error: Repository name is required.\n" :: usageText,
                  status := 1, cwd := [], stdin := w.stdin } ∧
      (run o w).status ≠ 0 ∧ (∀ e ∈ (run o w).trace, e.isStdout = true) ∧
      execs (run o w).trace = []) ∧
    (o.name ≠ "" →
      (∃ post, (run o w).trace =
        Event.stdout ("⌛ Checking if repository '" ++ o.name ++ "' already exists...\n") ::
          Event.exec ["gh", "repo", "view", o.name] false :: post) ∧
      (execs (run o w).trace).head? = some ["gh", "repo", "view", o.name] ∧
      (run o w).trace.head? ≠ some (Event.stdout "❌ Error: Repository name is required.\n")) := by
  constructor
  · intro hn
    have h : run o w =
        { trace := Event.stdout "❌ Error: Repository name is required.\n" :: usageText,
          status := 1, cwd := [], stdin := w.stdin } := by
      simp [run, main, bind, pure, flagUsage_eval, osExit, fmtPrint, emit, hh, hn]
    rw [h]
    refine ⟨rfl, by simp, ?_, ?_⟩
    · simp [usageText, Event.isStdout]
    · simp [usageText, execs]
  · intro hn
    obtain ⟨post, hp⟩ := run_starts_with_probe o w hh hn
    rw [hp]
    refine ⟨⟨post, rfl⟩, by simp [execs, probeArgv], ?_⟩
    intro h
    simp only [List.head?_cons, Option.some.injEq, Event.stdout.injEq] at h
    have h1 := congrArg (fun t => t.data.head?) h
    simp [String.data_append] at h1

/-- C1 amended, at concrete inputs: the empty name is rejected without any child process;
the name of one blank is probed as it stands. -/
theorem only_empty_name_is_rejected_witness :
    ((run ⟨"", true, false, false⟩ (worldExisting "y\n")).status ≠ 0 ∧
      execs (run ⟨"", true, false, false⟩ (worldExisting "y\n")).trace = []) ∧
    (execs (run ⟨" ", false, false, false⟩ (worldFresh "")).trace).head? =
      some ["gh", "repo", "view", " "] :=
  have h0 := (only_empty_name_is_rejected ⟨"", true, false, false⟩ (worldExisting "y\n") rfl).1 rfl
  have h1 := (only_empty_name_is_rejected ⟨" ", false, false, false⟩ (worldFresh "") rfl).2
    (by decide)
  ⟨⟨h0.2.1, h0.2.2.2⟩, h1.2.1⟩

/-! ## The remote exists -/

/-- C3. With help unset and a non-empty name, whatever create-dir and private are: when
the probe reports that the remote exists and the user says yes at the clone prompt, the
only command run through `runCommand` is `git clone` of the URL built from the
repository name, the only other child process is the probe, no file-system or
working-directory call is made, and the run exits with status 0 when the clone succeeds
(and with status 1 when it fails). -/
theorem clone_short_circuits (o : Options) (w : World) (hh : o.help = false)
    (hn : o.name ≠ "") (hp : w.cmdErr (probeArgv o.name) = none)
    (hy : saysYes w.stdin = true) :
    commands (run o w).trace =
        [["git", "clone", "https://github.com/YOUR_USERNAME/" ++ o.name ++ ".git"]] ∧
      execs (run o w).trace = [probeArgv o.name, cloneArgv o.name] ∧
      (∀ e ∈ (run o w).trace, e.isFs = false) ∧
      (run o w).cwd = [] ∧
      (w.cmdErr (cloneArgv o.name) = none →
        (run o w).status = 0 ∧
        (run o w).trace.getLast? = some (Event.stdout "✅ Repository cloned successfully!\n")) ∧
      (w.cmdErr (cloneArgv o.name) ≠ none → (run o w).status = 1) := by
  rw [run_phases o w hh hn, remoteSteps_eval, if_pos hp, if_pos hy]
  by_cases hc : w.cmdErr (cloneArgv o.name) = none
  · rw [if_pos hc]
    simp only [cloneArgv] at hc ⊢
    simp [hc, commands, execs, Event.isFs, runningLine, promptLine]
  · rw [if_neg hc]
    simp only [cloneArgv] at hc ⊢
    simp [hc, commands, execs, Event.isFs, runningLine, promptLine]

/-- C3, at a concrete input: the remote `demo` exists and the user types `y`. -/
theorem clone_short_circuits_witness :
    commands (run ⟨"demo", true, true, false⟩ (worldExisting "y\n")).trace =
        [["git", "clone", "https://github.com/YOUR_USERNAME/demo.git"]] ∧
      (run ⟨"demo", true, true, false⟩ (worldExisting "y\n")).status = 0 :=
  have h := clone_short_circuits ⟨"demo", true, true, false⟩ (worldExisting "y\n") rfl
    (by decide) rfl rfl
  ⟨h.1, (h.2.2.2.2.1 rfl).1⟩

/-- C5. With help unset and a non-empty name, whatever create-dir and private are: when
the probe reports that the remote exists and the user declines first the clone prompt and
then the continue prompt, the run ends with the cancellation message and status 1; its
only child process is the probe, it makes no file-system or working-directory call, and
the working directory is unchanged. -/
theorem decline_twice_mutates_nothing (o : Options) (w : World) (hh : o.help = false)
    (hn : o.name ≠ "") (hp : w.cmdErr (probeArgv o.name) = none)
    (h1 : saysYes w.stdin = false) (h2 : saysYes (unread w.stdin) = false) :
    run o w =
        { trace := [Event.stdout ("⌛ Checking if repository '" ++ o.name ++ "' already exists...\n"),
                    Event.exec (probeArgv o.name) false,
                    promptLine (clonePrompt o.name), Event.scanln (scanlnString w.stdin).1,
                    promptLine (continuePrompt o.name),
                    Event.scanln (scanlnString (unread w.stdin)).1,
                    cancelLine],
          status := 1, cwd := [], stdin := unread (unread w.stdin) } ∧
      (run o w).status ≠ 0 ∧
      execs (run o w).trace = [probeArgv o.name] ∧
      (∀ e ∈ (run o w).trace, e.isFs = false) ∧
      (run o w).cwd = [] := by
  have h : run o w =
      { trace := [Event.stdout ("⌛ Checking if repository '" ++ o.name ++ "' already exists...\n"),
                  Event.exec (probeArgv o.name) false,
                  promptLine (clonePrompt o.name), Event.scanln (scanlnString w.stdin).1,
                  promptLine (continuePrompt o.name),
                  Event.scanln (scanlnString (unread w.stdin)).1,
                  cancelLine],
        status := 1, cwd := [], stdin := unread (unread w.stdin) } := by
    rw [run_phases o w hh hn, remoteSteps_eval]
    simp [hp, h1, h2]
  rw [h]
  simp [execs, Event.isFs, promptLine, cancelLine]

/-- C5, at a concrete input: the remote exists and the user answers `n` twice. -/
theorem decline_twice_mutates_nothing_witness :
    (run ⟨"demo", true, false, false⟩ (worldExisting "n\nn\n")).status ≠ 0 ∧
      execs (run ⟨"demo", true, false, false⟩ (worldExisting "n\nn\n")).trace =
        [["gh", "repo", "view", "demo"]] :=
  have h := decline_twice_mutates_nothing ⟨"demo", true, false, false⟩ (worldExisting "n\nn\n")
    rfl (by decide) rfl rfl rfl
  ⟨h.2.1, h.2.2.1⟩

/-! ## The remote does not exist -/

theorem stdout_ne_promptLine (t p : String) (h : t.data.getLast? = some '\n') :
    Event.stdout t ≠ promptLine p := by
  intro he
  simp only [promptLine, Event.stdout.injEq] at he
  rw [he] at h
  simp [String.data_append] at h

theorem ends_newline (a b : String) (h : b.data.getLast? = some '\n') :
    (a ++ b).data.getLast? = some '\n' := by
  simp [String.data_append, List.getLast?_append, h]

/-- C7. With help unset, a non-empty name `N` and create-dir unset: when the probe reports
that the remote does not exist and the four commands succeed, the commands run through
`runCommand` are exactly `git init`, `git add .`,
`git commit --allow-empty -m "ci: create repository"` and
`gh repo create N V --source=. --remote=origin --push` with `V` `--private` when private
is set and `--public` otherwise; the only other child process is the probe before them;
the run exits with status 0; and it prints no confirmation prompt, calls `fmt.Scanln`
never and leaves standard input unread. -/
theorem plain_creation_sequence (o : Options) (w : World) (hh : o.help = false)
    (hn : o.name ≠ "") (hd : o.createDir = false)
    (hp : w.cmdErr (probeArgv o.name) ≠ none)
    (h1 : w.cmdErr ["git", "init"] = none)
    (h2 : w.cmdErr ["git", "add", "."] = none)
    (h3 : w.cmdErr ["git", "commit", "--allow-empty", "-m", "ci: create repository"] = none)
    (h4 : w.cmdErr (createArgv o.name (if o.priv = true then "--private" else "--public")) = none) :
    commands (run o w).trace =
        [["git", "init"], ["git", "add", "."],
         ["git", "commit", "--allow-empty", "-m", "ci: create repository"],
         ["gh", "repo", "create", o.name, if o.priv = true then "--private" else "--public",
          "--source=.", "--remote=origin", "--push"]] ∧
      execs (run o w).trace = probeArgv o.name :: commands (run o w).trace ∧
      (run o w).status = 0 ∧
      (∀ e ∈ (run o w).trace, ∀ p, e ≠ promptLine p) ∧
      (∀ e ∈ (run o w).trace, e.isScanln = false) ∧
      (run o w).stdin = w.stdin ∧
      (run o w).trace.getLast? = some (Event.stdout
        ("✅ Repository '" ++ o.name ++ "' created successfully and synchronized with Github!\n")) := by
  have h : run o w =
      { trace := [Event.stdout ("⌛ Checking if repository '" ++ o.name ++ "' already exists...\n"),
                  Event.exec (probeArgv o.name) false,
                  Event.stdout ("🚀 Repository '" ++ o.name ++ "' does not exist on GitHub. Proceeding with creation...\n"),
                  runningLine "git" ["init"],
                  Event.exec ["git", "init"] true,
                  runningLine "git" ["add", "."],
                  Event.exec ["git", "add", "."] true,
                  runningLine "git" ["commit", "--allow-empty", "-m", "ci: create repository"],
                  Event.exec ["git", "commit", "--allow-empty", "-m", "ci: create repository"] true,
                  runningLine "gh" (createArgv o.name (if o.priv = true then "--private" else "--public")).tail,
                  Event.exec (createArgv o.name (if o.priv = true then "--private" else "--public")) true,
                  Event.stdout ("✅ Repository '" ++ o.name ++ "' created successfully and synchronized with Github!\n")],
        status := 0, cwd := [], stdin := w.stdin } := by
    rw [run_of_reaches o w ⟨hh, hn, Or.inl hp⟩, localSteps_eval, if_neg (by simp [hd]),
      publishSteps_eval, if_pos h1, if_pos h2, if_pos h3, if_pos h4]
    simp [dirStepState, notFoundState, hp]
  rw [h]
  refine ⟨by simp [commands, runningLine, createArgv], by simp [commands, execs, runningLine, createArgv],
    rfl, ?_, by simp [Event.isScanln, runningLine], rfl, by simp⟩
  intro e he p
  simp only [List.mem_cons, List.mem_singleton, List.not_mem_nil, or_false] at he
  rcases he with he | he | he | he | he | he | he | he | he | he | he | he <;> subst he
  all_goals first
    | exact stdout_ne_promptLine _ _ (ends_newline _ _ rfl)
    | (simp [promptLine])

/-- C7, at a concrete input: a private repository `demo` that does not exist remotely. -/
theorem plain_creation_sequence_witness :
    commands (run ⟨"demo", false, true, false⟩ (worldFresh "")).trace =
        [["git", "init"], ["git", "add", "."],
         ["git", "commit", "--allow-empty", "-m", "ci: create repository"],
         ["gh", "repo", "create", "demo", "--private", "--source=.", "--remote=origin", "--push"]] ∧
      (run ⟨"demo", false, true, false⟩ (worldFresh "")).status = 0 :=
  have h := plain_creation_sequence ⟨"demo", false, true, false⟩ (worldFresh "") rfl (by decide)
    rfl (by decide) rfl rfl rfl rfl
  ⟨h.1, h.2.2.1⟩

/-- C10. With help unset, a non-empty name `N` and create-dir set: when the probe reports
that the remote does not exist, `os.Stat` finds no entry `N`, and `os.Mkdir`, `os.Chdir`
and the four commands succeed, the run is exactly: the probe, `os.Stat N`,
`os.Mkdir N 0755`, one `os.Chdir N`, then `git init`, `git add .`, the commit and the
remote creation, and it exits with status 0 inside `N`.  Moreover every run, whatever the
options and the environment, calls `os.Chdir` at most once, and never when create-dir is
unset (the working directory is then the one the run started in). -/
theorem fresh_directory_creation (o : Options) (w : World) (hh : o.help = false)
    (hn : o.name ≠ "") (hd : o.createDir = true)
    (hp : w.cmdErr (probeArgv o.name) ≠ none)
    (hs : w.statErr o.name ≠ none) (hm : w.mkdirErr o.name = none)
    (hc : w.chdirErr o.name = none)
    (h1 : w.cmdErr ["git", "init"] = none)
    (h2 : w.cmdErr ["git", "add", "."] = none)
    (h3 : w.cmdErr ["git", "commit", "--allow-empty", "-m", "ci: create repository"] = none)
    (h4 : w.cmdErr (createArgv o.name (if o.priv = true then "--private" else "--public")) = none) :
    run o w =
        { trace := [Event.stdout ("⌛ Checking if repository '" ++ o.name ++ "' already exists...\n"),
                    Event.exec (probeArgv o.name) false,
                    Event.stdout ("🚀 Repository '" ++ o.name ++ "' does not exist on GitHub. Proceeding with creation...\n"),
                    Event.stat o.name,
                    Event.mkdir o.name 0o755,
                    Event.stdout ("✅ Repository directory '" ++ o.name ++ "' created successfully!\n"),
                    Event.chdir o.name,
                    runningLine "git" ["init"],
                    Event.exec ["git", "init"] true,
                    runningLine "git" ["add", "."],
                    Event.exec ["git", "add", "."] true,
                    runningLine "git" ["commit", "--allow-empty", "-m", "ci: create repository"],
                    Event.exec ["git", "commit", "--allow-empty", "-m", "ci: create repository"] true,
                    runningLine "gh" ["repo", "create", o.name,
                      if o.priv = true then "--private" else "--public",
                      "--source=.", "--remote=origin", "--push"],
                    Event.exec ["gh", "repo", "create", o.name,
                      if o.priv = true then "--private" else "--public",
                      "--source=.", "--remote=origin", "--push"] true,
                    Event.stdout ("✅ Repository '" ++ o.name ++ "' created successfully and synchronized with Github!\n")],
          status := 0, cwd := [o.name], stdin := w.stdin } ∧
      (∀ (o2 : Options) (w2 : World),
        (run o2 w2).trace.countP Event.isChdir ≤ 1 ∧ (run o2 w2).cwd.length ≤ 1 ∧
        (o2.createDir = false →
          (run o2 w2).trace.countP Event.isChdir = 0 ∧ (run o2 w2).cwd = [])) := by
  refine ⟨?_, run_chdir⟩
  rw [run_of_reaches o w ⟨hh, hn, Or.inl hp⟩, localSteps_eval, if_pos hd, createDirectory_eval,
    if_neg hs, if_pos hm, if_pos hc, andThen_ok, publishSteps_eval, if_pos h1, if_pos h2,
    if_pos h3, if_pos h4]
  simp [dirStepState, notFoundState, hp, createArgv]

/-- C10, at a concrete input: `demo` with create-dir set, neither the remote nor the local
entry exists. -/
theorem fresh_directory_creation_witness :
    (run ⟨"demo", true, false, false⟩ (worldFresh "")).cwd = ["demo"] ∧
      (run ⟨"demo", true, false, false⟩ (worldFresh "")).status = 0 ∧
      (run ⟨"demo", true, false, false⟩ (worldFresh "")).trace.countP Event.isChdir = 1 :=
  have h := (fresh_directory_creation ⟨"demo", true, false, false⟩ (worldFresh "") rfl
    (by decide) rfl (by decide) (by decide) rfl rfl rfl rfl rfl rfl).1
  ⟨by rw [h], by rw [h], by rw [h]; rfl⟩

/-! ## The directory step -/

theorem run_reuse_declined (o : Options) (w : World) (hr : ReachesDirStep o w)
    (hd : o.createDir = true) (hs : w.statErr o.name = none)
    (hno : saysYes (dirStepInput o w) = false) :
    run o w =
      { trace := (dirStepState o w).trace ++
          [Event.stat o.name, promptLine (reusePrompt o.name),
           Event.scanln (scanlnString (dirStepInput o w)).1, cancelLine],
        status := 1, cwd := [], stdin := unread (dirStepInput o w) } := by
  obtain ⟨f1, f2, -⟩ := dirStepState_facts o w
  rw [run_of_reaches o w hr, localSteps_eval, if_pos hd, createDirectory_eval, if_pos hs, f1, f2]
  simp [hno]

/-- C6. For every run that reaches the directory step with create-dir set and `os.Stat`
finding an entry named after the repository: when the user declines the reuse prompt, the
run ends with the cancellation message and status 1, the working directory is the one the
run started in, `os.Mkdir` and `os.Chdir` are never called, and the existence probe is the
only child process of the whole run. -/
theorem reuse_declined_changes_nothing (o : Options) (w : World) (hr : ReachesDirStep o w)
    (hd : o.createDir = true) (hs : w.statErr o.name = none)
    (hno : saysYes (dirStepInput o w) = false) :
    (run o w).status = 1 ∧ (run o w).status ≠ 0 ∧ (run o w).cwd = [] ∧
      (∀ e ∈ (run o w).trace, e.isMkdir = false ∧ e.isChdir = false) ∧
      execs (run o w).trace = [probeArgv o.name] ∧
      (run o w).trace.getLast? = some cancelLine := by
  obtain ⟨-, -, f3, -, f5⟩ := dirStepState_facts o w
  rw [run_reuse_declined o w hr hd hs hno]
  refine ⟨rfl, by simp, rfl, ?_, by simp [execs_append, f3, execs, promptLine, cancelLine], by simp⟩
  intro e he
  simp only [List.mem_append, List.mem_cons, List.mem_singleton, List.not_mem_nil, or_false] at he
  rcases he with he | he | he | he | he
  · have := f5 e he
    cases e <;> simp_all [Event.isFs, Event.isMkdir, Event.isChdir]
  all_goals subst he; simp [Event.isMkdir, Event.isChdir, promptLine, cancelLine]

/-- C6, at a concrete input: the remote does not exist, the entry `demo` does, and the user
answers `n`. -/
theorem reuse_declined_changes_nothing_witness :
    (run ⟨"demo", true, false, false⟩
        { worldFresh "n\n" with statErr := fun _ => none }).status ≠ 0 ∧
      (run ⟨"demo", true, false, false⟩
        { worldFresh "n\n" with statErr := fun _ => none }).cwd = [] :=
  have h := reuse_declined_changes_nothing ⟨"demo", true, false, false⟩
    { worldFresh "n\n" with statErr := fun _ => none }
    ⟨rfl, by decide, Or.inl (by decide)⟩ rfl rfl rfl
  ⟨h.2.1, h.2.2.1⟩

/-! ## Fail-fast command execution -/

theorem FailFast_of_no_commands (w : World) (c : Nat) (t : List Event) (h : commands t = []) :
    FailFast w c t := by
  induction t with
  | nil => trivial
  | cons e t ih =>
    cases e with
    | exec argv inherit =>
      cases inherit
      · simp only [commands] at h
        simpa [FailFast] using ih h
      · simp [commands] at h
    | _ =>
      simp only [commands] at h
      simpa [FailFast] using ih h

theorem FailFast_append (w : World) (c : Nat) (pre t : List Event) (h : commands pre = [])
    (ht : FailFast w c t) : FailFast w c (pre ++ t) := by
  induction pre with
  | nil => simpa using ht
  | cons e pre ih =>
    cases e with
    | exec argv inherit =>
      cases inherit
      · simp only [commands] at h
        simpa [FailFast] using ih h
      · simp [commands] at h
    | _ =>
      simp only [commands] at h
      simpa [FailFast] using ih h

theorem FailFast_split (w : World) (c : Nat) (pre : List Event) :
    ∀ t, FailFast w c t → ∀ argv post, t = pre ++ Event.exec argv true :: post →
      w.cmdErr argv ≠ none → (∃ msg, post = [Event.fatal msg]) ∧ c = 1 := by
  induction pre with
  | nil =>
    intro t ht argv post he hf
    subst he
    exact ht.1 hf
  | cons e pre ih =>
    intro t ht argv post he hf
    subst he
    refine ih _ ?_ argv post rfl hf
    cases e with
    | exec a inherit =>
      cases inherit
      · simpa [FailFast] using ht
      · exact ht.2
    | _ => simpa [FailFast] using ht

theorem publishSteps_failFast (o : Options) (w : World) (s : State) (hs : commands s.trace = []) :
    FailFast w (publishSteps o w s).outcome.status (publishSteps o w s).outcome.trace := by
  rw [publishSteps_eval]
  split_ifs <;> simp only [outcome_ok, outcome_exited] <;> apply FailFast_append _ _ _ _ hs <;>
    simp [FailFast, runningLine, *]

theorem localSteps_failFast (o : Options) (w : World) (s : State) (hs : commands s.trace = []) :
    FailFast w (localSteps o w s).outcome.status (localSteps o w s).outcome.trace := by
  rw [localSteps_eval]
  by_cases hd : o.createDir = true
  · rw [if_pos hd, createDirectory_eval]
    split_ifs <;> simp only [andThen_ok, andThen_exited, outcome_exited]
    · apply publishSteps_failFast; simp [commands_append, hs, commands, promptLine]
    · apply FailFast_of_no_commands; simp [commands_append, hs, commands, promptLine]
    · apply FailFast_of_no_commands; simp [commands_append, hs, commands, promptLine, cancelLine]
    · apply publishSteps_failFast; simp [commands_append, hs, commands]
    · apply FailFast_of_no_commands; simp [commands_append, hs, commands]
    · apply FailFast_of_no_commands; simp [commands_append, hs, commands]
  · rw [if_neg hd]
    exact publishSteps_failFast o w s hs

theorem run_failFast (o : Options) (w : World) :
    FailFast w (run o w).status (run o w).trace := by
  by_cases hh : o.help = true
  · apply FailFast_of_no_commands
    simp [run, main_phases, hh, usageText, commands]
  by_cases hn : o.name = ""
  · apply FailFast_of_no_commands
    simp [run, main_phases, hh, hn, usageText, commands]
  by_cases hr : ReachesDirStep o w
  · rw [run_of_reaches o w hr]
    exact localSteps_failFast o w _ (dirStepState_facts o w).2.2.2.1
  · rw [run_phases o w (by simpa using hh) hn, remoteSteps_eval]
    simp only [ReachesDirStep, not_and, not_or, not_not] at hr
    have h3 := hr (by simpa using hh) hn
    by_cases h1 : saysYes w.stdin = true
    · simp only [h3.1, h1, if_true]
      split_ifs with hc <;> simp only [cloneArgv] at hc ⊢ <;>
        simp [FailFast, promptLine, runningLine, hc]
    · have h2 : ¬ saysYes (unread w.stdin) = true := h3.2 (by simpa using h1)
      apply FailFast_of_no_commands
      simp [h3.1, h1, h2, commands, promptLine, cancelLine]

theorem localSteps_probe_irrelevant (o : Options) (w : World) (r1 r2 : Option String)
    (s : State) :
    localSteps o (w.withCmdErr (probeArgv o.name) r1) s =
      localSteps o (w.withCmdErr (probeArgv o.name) r2) s := by
  simp [localSteps_eval, createDirectory_eval, publishSteps_eval, World.withCmdErr, probeArgv,
    createArgv]

/-- C9. In every run, a child started through `runCommand` whose `Run` returns an error is
followed in the trace by the `log.Fatalf` line and nothing else, and the exit status is 1:
no later command, no retry and no success message.  The probe of `repoExists` is
different: `repoExists` always returns, with `false` whenever the probe returned an error,
and `main` then prints the does-not-exist line and goes on with the local steps; which
error the probe returned makes no difference to the run. -/
theorem fail_fast (o : Options) (w : World) :
    (∀ pre argv post, (run o w).trace = pre ++ Event.exec argv true :: post →
        w.cmdErr argv ≠ none →
        (∃ msg, post = [Event.fatal msg]) ∧ (run o w).status = 1) ∧
      (∀ s, repoExists o.name w s =
        Result.ok (w.cmdErr (probeArgv o.name)).isNone
          { s with trace := s.trace ++ [Event.exec (probeArgv o.name) false] }) ∧
      (o.help = false → o.name ≠ "" → w.cmdErr (probeArgv o.name) ≠ none →
        run o w = (localSteps o w (notFoundState o w)).outcome) ∧
      (∀ e1 e2 : String,
        run o (w.withCmdErr (probeArgv o.name) (some e1)) =
          run o (w.withCmdErr (probeArgv o.name) (some e2))) := by
  refine ⟨?_, repoExists_eval o.name w, ?_, ?_⟩
  · intro pre argv post he hf
    exact FailFast_split w _ pre _ (run_failFast o w) argv post he hf
  · intro hh hn hp
    rw [run_of_reaches o w ⟨hh, hn, Or.inl hp⟩]
    simp [dirStepState, hp]
  · intro e1 e2
    by_cases hh : o.help = true
    · simp [run, main_phases, hh, World.withCmdErr]
    by_cases hn : o.name = ""
    · simp [run, main_phases, hh, hn, World.withCmdErr]
    have hh1 : o.help = false := by simpa using hh
    rw [run_of_reaches o _ ⟨hh1, hn, Or.inl (by simp [World.withCmdErr])⟩,
      run_of_reaches o _ ⟨hh1, hn, Or.inl (by simp [World.withCmdErr])⟩,
      localSteps_probe_irrelevant o w (some e1) (some e2)]
    simp [dirStepState, notFoundState, World.withCmdErr]

/-- C9, at a concrete input: `git add .` fails after `git init` succeeded; the trace ends
with the `log.Fatalf` line right behind that command and the status is 1. -/
theorem fail_fast_witness :
    commands (run ⟨"demo", false, false, false⟩ worldAddFails).trace =
        [["git", "init"], ["git", "add", "."]] ∧
      (∃ msg, (run ⟨"demo", false, false, false⟩ worldAddFails).trace.getLast? =
        some (Event.fatal msg)) ∧
      (run ⟨"demo", false, false, false⟩ worldAddFails).status = 1 :=
  have h := (fail_fast ⟨"demo", false, false, false⟩ worldAddFails).1
    [Event.stdout "⌛ Checking if repository 'demo' already exists...\n",
     Event.exec ["gh", "repo", "view", "demo"] false,
     Event.stdout "🚀 Repository 'demo' does not exist on GitHub. Proceeding with creation...\n",
     Event.stdout "\t⚙️  Running command: git init\n",
     Event.exec ["git", "init"] true,
     Event.stdout "\t⚙️  Running command: git add .\n"]
    ["git", "add", "."]
    [Event.fatal "❌ Error running command git [add .]: exit status 1\n"]
    rfl (by decide)
  ⟨rfl, ⟨_, rfl⟩, h.2⟩

/-! ## Cancellation -/

/-- C4, refuted as stated: the remote `demo` exists, the user answers `n` at the clone
prompt and `y` at the continue prompt; the negative answer at the clone prompt is no
cancellation, the run goes on through all four commands, never prints the cancellation
message and exits with status 0. -/
theorem clone_declined_is_no_cancellation :
    saysYes (worldExisting "n\ny\n").stdin = false ∧
      (run ⟨"demo", false, false, false⟩ (worldExisting "n\ny\n")).status = 0 ∧
      cancelLine ∉ (run ⟨"demo", false, false, false⟩ (worldExisting "n\ny\n")).trace ∧
      commands (run ⟨"demo", false, false, false⟩ (worldExisting "n\ny\n")).trace =
        [["git", "init"], ["git", "add", "."],
         ["git", "commit", "--allow-empty", "-m", "ci: create repository"],
         ["gh", "repo", "create", "demo", "--public", "--source=.", "--remote=origin", "--push"]] :=
  ⟨rfl, rfl, by decide, rfl⟩

/-- C4, amended: with help unset and a non-empty name, a negative answer at the continue
prompt or at the reuse-directory prompt is a cancellation: the cancellation message is the
last thing the run does and the exit status is 1.  A negative answer at the clone prompt
is not: the run goes on to the continue prompt. -/
theorem decline_continue_or_reuse_cancels (o : Options) (w : World) (hh : o.help = false)
    (hn : o.name ≠ "") :
    (w.cmdErr (probeArgv o.name) = none → saysYes w.stdin = false →
        saysYes (unread w.stdin) = false →
        run o w =
          { trace := [Event.stdout ("⌛ Checking if repository '" ++ o.name ++ "' already exists...\n"),
                      Event.exec (probeArgv o.name) false,
                      promptLine (clonePrompt o.name), Event.scanln (scanlnString w.stdin).1,
                      promptLine (continuePrompt o.name),
                      Event.scanln (scanlnString (unread w.stdin)).1,
                      cancelLine],
            status := 1, cwd := [], stdin := unread (unread w.stdin) }) ∧
      (ReachesDirStep o w → o.createDir = true → w.statErr o.name = none →
        saysYes (dirStepInput o w) = false →
        run o w =
          { trace := (dirStepState o w).trace ++
              [Event.stat o.name, promptLine (reusePrompt o.name),
               Event.scanln (scanlnString (dirStepInput o w)).1, cancelLine],
            status := 1, cwd := [], stdin := unread (dirStepInput o w) }) ∧
      (w.cmdErr (probeArgv o.name) = none → saysYes w.stdin = false →
        ∃ post, (run o w).trace =
          [Event.stdout ("⌛ Checking if repository '" ++ o.name ++ "' already exists...\n"),
           Event.exec (probeArgv o.name) false,
           promptLine (clonePrompt o.name), Event.scanln (scanlnString w.stdin).1,
           promptLine (continuePrompt o.name),
           Event.scanln (scanlnString (unread w.stdin)).1] ++ post) := by
  refine ⟨?_, run_reuse_declined o w, ?_⟩
  · intro hp h1 h2
    rw [run_phases o w hh hn, remoteSteps_eval]
    simp [hp, h1, h2]
  · intro hp h1
    by_cases h2 : saysYes (unread w.stdin) = true
    · rw [run_of_reaches o w ⟨hh, hn, Or.inr ⟨h1, h2⟩⟩, localSteps_eval, createDirectory_eval,
        publishSteps_eval]
      simp only [dirStepState, hp, if_true, continueState]
      split_ifs <;> simp [publishSteps_eval] <;> split_ifs <;> simp
    · rw [run_phases o w hh hn, remoteSteps_eval]
      simp [hp, h1, h2]

/-- C4 amended, at a concrete input: the remote exists and the user answers `n` twice. -/
theorem decline_continue_or_reuse_cancels_witness :
    (run ⟨"demo", false, false, false⟩ (worldExisting "n\nn\n")).status = 1 ∧
      (run ⟨"demo", false, false, false⟩ (worldExisting "n\nn\n")).trace.getLast? =
        some cancelLine :=
  have h := (decline_continue_or_reuse_cancels ⟨"demo", false, false, false⟩
    (worldExisting "n\nn\n") rfl (by decide)).1 rfl rfl rfl
  ⟨by rw [h], by rw [h]; rfl⟩

/-! ## Checks of the modelling vocabulary -/

theorem publishSteps_execs (o : Options) (w : World) (s : State) :
    ∃ k, execs (publishSteps o w s).outcome.trace = execs s.trace ++
      List.take k [["git", "init"], ["git", "add", "."],
        ["git", "commit", "--allow-empty", "-m", "ci: create repository"],
        createArgv o.name (if o.priv = true then "--private" else "--public")] := by
  rw [publishSteps_eval]
  generalize (if o.priv = true then "--private" else "--public") = v
  split_ifs
  · exact ⟨4, by simp [execs_append, execs, runningLine]⟩
  · exact ⟨4, by simp [execs_append, execs, runningLine]⟩
  · exact ⟨3, by simp [execs_append, execs, runningLine]⟩
  · exact ⟨2, by simp [execs_append, execs, runningLine]⟩
  · exact ⟨1, by simp [execs_append, execs, runningLine]⟩

theorem createDirectory_execs (n : String) (w : World) (s : State) :
    (∃ s1, createDirectory n w s = Result.ok () s1 ∧ execs s1.trace = execs s.trace) ∨
      (∃ s1, createDirectory n w s = Result.exited 1 s1 ∧ execs s1.trace = execs s.trace) := by
  rw [createDirectory_eval]
  split_ifs
  · exact Or.inl ⟨_, rfl, by simp [execs_append, execs, promptLine]⟩
  · exact Or.inr ⟨_, rfl, by simp [execs_append, execs, promptLine]⟩
  · exact Or.inr ⟨_, rfl, by simp [execs_append, execs, promptLine, cancelLine]⟩
  · exact Or.inl ⟨_, rfl, by simp [execs_append, execs]⟩
  · exact Or.inr ⟨_, rfl, by simp [execs_append, execs]⟩
  · exact Or.inr ⟨_, rfl, by simp [execs_append, execs]⟩

theorem localSteps_execs (o : Options) (w : World) (s : State) :
    ∃ k, execs (localSteps o w s).outcome.trace = execs s.trace ++
      List.take k [["git", "init"], ["git", "add", "."],
        ["git", "commit", "--allow-empty", "-m", "ci: create repository"],
        createArgv o.name (if o.priv = true then "--private" else "--public")] := by
  rw [localSteps_eval]
  by_cases hd : o.createDir = true
  · rw [if_pos hd]
    rcases createDirectory_execs o.name w s with ⟨s1, h1, h2⟩ | ⟨s1, h1, h2⟩
    · rw [h1, andThen_ok, ← h2]
      exact publishSteps_execs o w s1
    · rw [h1, andThen_exited, outcome_exited]
      exact ⟨0, by simp [h2]⟩
  · rw [if_neg hd]
    exact publishSteps_execs o w s

/-- No run starts two child processes with the same command line: an environment that
answers by command line can play any sequence of answers. -/
theorem run_execs_nodup (o : Options) (w : World) : (execs (run o w).trace).Nodup := by
  by_cases hh : o.help = true
  · simp [run, main_phases, hh, usageText, execs]
  by_cases hn : o.name = ""
  · simp [run, main_phases, hh, hn, usageText, execs]
  by_cases hr : ReachesDirStep o w
  · rw [run_of_reaches o w hr]
    obtain ⟨k, hk⟩ := localSteps_execs o w (dirStepState o w)
    rw [hk, (dirStepState_facts o w).2.2.1]
    have hnd : ([probeArgv o.name] ++ [["git", "init"], ["git", "add", "."],
        ["git", "commit", "--allow-empty", "-m", "ci: create repository"],
        createArgv o.name (if o.priv = true then "--private" else "--public")]).Nodup := by
      simp [probeArgv, createArgv]
    exact hnd.sublist (List.Sublist.append_left (List.take_sublist k _) _)
  · rw [run_phases o w (by simpa using hh) hn, remoteSteps_eval]
    simp only [ReachesDirStep, not_and, not_or, not_not] at hr
    have h3 := hr (by simpa using hh) hn
    by_cases h1 : saysYes w.stdin = true
    · simp only [h3.1, h1, if_true]
      split_ifs <;> simp [execs, promptLine, runningLine, cloneArgv, probeArgv]
    · have h2 : ¬ saysYes (unread w.stdin) = true := h3.2 (by simpa using h1)
      simp [h3.1, h1, h2, execs, promptLine, cancelLine]

theorem publishSteps_keeps (o : Options) (w : World) (s : State) (e : Event)
    (he : e ∈ s.trace) : e ∈ (publishSteps o w s).outcome.trace := by
  rw [publishSteps_eval]
  generalize (if o.priv = true then "--private" else "--public") = v
  split_ifs <;> simp [he]

/-- With create-dir set, the runs that reach the directory step are exactly those that
call `os.Stat`. -/
theorem stat_mem_iff_reaches (o : Options) (w : World) (hd : o.createDir = true) :
    Event.stat o.name ∈ (run o w).trace ↔ ReachesDirStep o w := by
  constructor
  · intro h
    by_contra hr
    revert h
    by_cases hh : o.help = true
    · simp [run, main_phases, hh, usageText]
    by_cases hn : o.name = ""
    · simp [run, main_phases, hh, hn, usageText]
    rw [run_phases o w (by simpa using hh) hn, remoteSteps_eval]
    simp only [ReachesDirStep, not_and, not_or, not_not] at hr
    have h3 := hr (by simpa using hh) hn
    by_cases h1 : saysYes w.stdin = true
    · simp only [h3.1, h1, if_true]
      split_ifs <;> simp [promptLine, runningLine]
    · have h2 : ¬ saysYes (unread w.stdin) = true := h3.2 (by simpa using h1)
      simp [h3.1, h1, h2, promptLine, cancelLine]
  · intro hr
    rw [run_of_reaches o w hr, localSteps_eval, if_pos hd, createDirectory_eval]
    split_ifs <;> simp only [andThen_ok, andThen_exited, outcome_exited] <;>
      first
        | (apply publishSteps_keeps; simp)
        | simp

theorem publishSteps_fs (o : Options) (w : World) (s : State) :
    (publishSteps o w s).outcome.trace.filter Event.isFs = s.trace.filter Event.isFs := by
  rw [publishSteps_eval]
  generalize (if o.priv = true then "--private" else "--public") = v
  split_ifs <;> simp [List.filter_append, List.filter, Event.isFs, runningLine]

theorem createDirectory_fs (n : String) (w : World) (s : State) :
    ∃ l, List.Sublist l [Event.stat n, Event.mkdir n 0o755, Event.chdir n] ∧
      ((∃ s1, createDirectory n w s = Result.ok () s1 ∧
          s1.trace.filter Event.isFs = s.trace.filter Event.isFs ++ l) ∨
        (∃ s1, createDirectory n w s = Result.exited 1 s1 ∧
          s1.trace.filter Event.isFs = s.trace.filter Event.isFs ++ l)) := by
  rw [createDirectory_eval]
  split_ifs
  · exact ⟨[Event.stat n, Event.chdir n], by simp,
      Or.inl ⟨_, rfl, by simp [List.filter_append, List.filter, Event.isFs, promptLine]⟩⟩
  · exact ⟨[Event.stat n, Event.chdir n], by simp,
      Or.inr ⟨_, rfl, by simp [List.filter_append, List.filter, Event.isFs, promptLine]⟩⟩
  · exact ⟨[Event.stat n], by simp,
      Or.inr ⟨_, rfl, by simp [List.filter_append, List.filter, Event.isFs, promptLine, cancelLine]⟩⟩
  · exact ⟨[Event.stat n, Event.mkdir n 0o755, Event.chdir n], by simp,
      Or.inl ⟨_, rfl, by simp [List.filter_append, List.filter, Event.isFs]⟩⟩
  · exact ⟨[Event.stat n, Event.mkdir n 0o755, Event.chdir n], by simp,
      Or.inr ⟨_, rfl, by simp [List.filter_append, List.filter, Event.isFs]⟩⟩
  · exact ⟨[Event.stat n, Event.mkdir n 0o755], by simp,
      Or.inr ⟨_, rfl, by simp [List.filter_append, List.filter, Event.isFs]⟩⟩

/-- The file-system calls of a run are, in this order and each at most once, `os.Stat`,
`os.Mkdir` and `os.Chdir` on the repository name. -/
theorem run_fs_calls (o : Options) (w : World) :
    List.Sublist ((run o w).trace.filter Event.isFs)
      [Event.stat o.name, Event.mkdir o.name 0o755, Event.chdir o.name] := by
  by_cases hh : o.help = true
  · simp [run, main_phases, hh, usageText, List.filter, Event.isFs]
  by_cases hn : o.name = ""
  · simp [run, main_phases, hh, hn, usageText, List.filter, Event.isFs]
  by_cases hr : ReachesDirStep o w
  · have h0 : (dirStepState o w).trace.filter Event.isFs = [] := by
      rw [List.filter_eq_nil_iff]
      intro e he
      simp [(dirStepState_facts o w).2.2.2.2 e he]
    rw [run_of_reaches o w hr, localSteps_eval]
    by_cases hd : o.createDir = true
    · rw [if_pos hd]
      obtain ⟨l, hl, ⟨s1, h1, h2⟩ | ⟨s1, h1, h2⟩⟩ := createDirectory_fs o.name w (dirStepState o w)
      · rw [h1, andThen_ok, publishSteps_fs, h2, h0]
        simpa using hl
      · rw [h1, andThen_exited, outcome_exited, h2, h0]
        simpa using hl
    · rw [if_neg hd, publishSteps_fs, h0]
      simp
  · rw [run_phases o w (by simpa using hh) hn, remoteSteps_eval]
    simp only [ReachesDirStep, not_and, not_or, not_not] at hr
    have h3 := hr (by simpa using hh) hn
    by_cases h1 : saysYes w.stdin = true
    · simp only [h3.1, h1, if_true]
      split_ifs <;> simp [List.filter, Event.isFs, promptLine, runningLine]
    · have h2 : ¬ saysYes (unread w.stdin) = true := h3.2 (by simpa using h1)
      simp [h3.1, h1, h2, List.filter, Event.isFs, promptLine, cancelLine]

end RepoCreate
